import Mathlib

set_option linter.unusedVariables false

namespace TourApp

/-! Shallow embedding of the tour scheduling core
    (`src/app/service.py`, `src/app/storage.py`, `src/app/models.py`).

    Modelling conventions:
    * UTC instants (timezone-aware Python `datetime` values normalized with
      `astimezone(timezone.utc)`) are modelled as `Nat` seconds since the
      epoch; `datetime.date()` becomes the day index `t / 86400`.  The
      storage keys rate-limit counters by ISO date string, whose
      lexicographic order coincides with the chronological order of days,
      so counters are keyed here by the day index directly.
    * `datetime.isoformat()` is modelled by `isoFormat` (decimal
      representation): like real ISO-8601 timestamps it is an injective
      encoding of the instant that never contains the character `|`.
    * Incoming request timestamps are modelled by `Ts`: an instant together
      with the `tzinfo is not None` flag that `ensure_utc` checks.
    * The `uuid4`-based tour ids (`"tour_" + 12 random hex digits`, opaque
      unique strings) are modelled as successive values of a deterministic
      id supply `St.nextId`.
    * Python dicts are modelled as association lists with the dict's
      insertion-order semantics: updating an existing key keeps its
      position, a fresh key is appended at the end.
    * Raised exceptions are modelled by `Except`; stateful methods return
      the (possibly mutated) state next to the outcome, so a failure that
      happens after a mutation faithfully keeps that mutation. -/

/-- Status enum from `models.TourStatus`. -/
inductive TourStatus where
  | booked
  | cancelled
deriving DecidableEq, Repr

/-- Dataclass `models.Tour`. -/
structure Tour where
  id : Nat
  property_id : String
  customer_id : String
  start_at : Nat
  end_at : Nat
  status : TourStatus
  created_at : Nat
  updated_at : Nat
deriving DecidableEq, Repr

/-- Dataclass `models.IdempotencyRecord`. -/
structure IdempotencyRecord where
  key : String
  tour_id : Nat
  fingerprint : String
  created_at : Nat
  expires_at : Nat
deriving DecidableEq, Repr

/-- Dataclass `models.RateLimitCounter`. -/
structure RateLimitCounter where
  customer_id : String
  day : Nat
  count : Nat
deriving DecidableEq, Repr

/-- The typed failures of `errors.py` (`BadRequestError` carries the
    offending field name, as every raise site in the service supplies one). -/
inductive AppErr where
  | badRequest (message : String) (field : String)
  | conflict (message : String)
  | notFound (message : String)
  | rateLimit (message : String)
deriving DecidableEq, Repr

/-- A request timestamp: `aware` models `tzinfo is not None`. -/
structure Ts where
  aware : Bool
  instant : Nat
deriving DecidableEq, Repr

/-- Dict lookup (first matching key; dicts never hold duplicate keys). -/
def lookupA {κ ν : Type} [DecidableEq κ] (l : List (κ × ν)) (k : κ) : Option ν :=
  match l with
  | [] => none
  | (a, b) :: t => if a = k then some b else lookupA t k

/-- Dict update `d[k] = v`: an existing key keeps its position, a fresh key
    is appended at the end (Python insertion-order semantics). -/
def upsertA {κ ν : Type} [DecidableEq κ] (l : List (κ × ν)) (k : κ) (v : ν) : List (κ × ν) :=
  match l with
  | [] => [(k, v)]
  | (a, b) :: t => if a = k then (k, v) :: t else (a, b) :: upsertA t k v

/-- Dict deletion `del d[k]`. -/
def eraseA {κ ν : Type} [DecidableEq κ] (l : List (κ × ν)) (k : κ) : List (κ × ν) :=
  match l with
  | [] => []
  | (a, b) :: t => if a = k then t else (a, b) :: eraseA t k

/-- Dict `values()` in insertion order. -/
def valuesA {κ ν : Type} (l : List (κ × ν)) : List ν :=
  l.map Prod.snd

/-- The whole `InMemoryTourStorage`: three maps plus the id supply that
    stands in for `uuid4`. -/
structure St where
  tours : List (Nat × Tour)
  idem : List (String × IdempotencyRecord)
  rateLimits : List ((String × Nat) × RateLimitCounter)
  nextId : Nat
deriving DecidableEq, Repr

/-- The empty storage a fresh process starts from. -/
def initSt : St :=
  { tours := [], idem := [], rateLimits := [], nextId := 0 }

/-- The arguments of `TourService.create_tour`. -/
structure CreateArgs where
  property_id : String
  customer_id : String
  start_at : Ts
  end_at : Ts
  idempotency_key : Option String
deriving DecidableEq, Repr

/-- Python truthiness of an optional string (`if idempotency_key:`,
    `if property_id:`): `None` and the empty string are falsy. -/
def optTruthy : Option String → Bool
  | none => false
  | some s => decide (s ≠ "")

/-- Function `service.ensure_utc`: reject naive timestamps, otherwise
    normalize to UTC (which preserves the instant). -/
def ensure_utc (ts : Ts) (field : String) : Except AppErr Nat :=
  if ts.aware then Except.ok ts.instant
  else Except.error (AppErr.badRequest "timestamp must be timezone-aware" field)

/-- Function `service.overlaps`: half-open interval overlap,
    `start_a < end_b and start_b < end_a`. -/
def overlaps (start_a end_a start_b end_b : Nat) : Bool :=
  decide (start_a < end_b) && decide (start_b < end_a)

/-- The UTC calendar day of an instant (`datetime.date()` of a UTC datetime). -/
def utcDay (t : Nat) : Nat :=
  t / 86400

/-- Stand-in for `datetime.isoformat()`: an injective encoding of the
    instant containing no `|` character. -/
def isoFormat (t : Nat) : String :=
  toString t

/-- Method `TourService._fingerprint`:
    `"|".join([property_id, customer_id, start_at.isoformat(), end_at.isoformat()])`. -/
def fingerprint (property_id customer_id : String) (start_at end_at : Nat) : String :=
  property_id ++ "|" ++ customer_id ++ "|" ++ isoFormat start_at ++ "|" ++ isoFormat end_at

/-- Method `InMemoryTourStorage.get_idempotency_record`: read-side expiry
    check; an expired record is purged and reported absent. -/
def get_idempotency_record (s : St) (key : String) (now : Nat) :
    St × Option IdempotencyRecord :=
  match lookupA s.idem key with
  | none => (s, none)
  | some r =>
    if r.expires_at ≤ now then ({ s with idem := eraseA s.idem key }, none)
    else (s, some r)

/-- Method `InMemoryTourStorage.cleanup_rate_limits`: drop counters whose
    day key is strictly before today. -/
def cleanup_rate_limits (now : Nat) (l : List ((String × Nat) × RateLimitCounter)) :
    List ((String × Nat) × RateLimitCounter) :=
  l.filter fun p => decide (utcDay now ≤ p.1.2)

/-- Method `TourService._get_or_create_rate_limit`: lazily create the
    counter for `(customer_id, day)` with count 0. -/
def getOrCreateRateLimit (customer_id : String) (d : Nat) (s : St) :
    St × RateLimitCounter :=
  match lookupA s.rateLimits (customer_id, d) with
  | some c => (s, c)
  | none =>
    let c0 : RateLimitCounter := { customer_id := customer_id, day := d, count := 0 }
    ({ s with rateLimits := upsertA s.rateLimits (customer_id, d) c0 }, c0)

/-- The scan of `TourService._ensure_no_overlap`: is there a stored tour on
    the same property, still Booked, whose half-open interval overlaps the
    requested one? -/
def hasOverlap (property_id : String) (start_at end_at : Nat)
    (tours : List (Nat × Tour)) : Bool :=
  tours.any fun p =>
    decide (p.2.property_id = property_id) &&
      decide (p.2.status = TourStatus.booked) &&
      overlaps p.2.start_at p.2.end_at start_at end_at

/-- The idempotency lookup at the top of `create_tour`
    (`if idempotency_key: record = storage.get_idempotency_record(...)`). -/
def idemProbe (a : CreateArgs) (now : Nat) (s : St) : St × Option IdempotencyRecord :=
  match a.idempotency_key with
  | none => (s, none)
  | some k => if k = "" then (s, none) else get_idempotency_record s k now

/-- Lines 58-101 of `service.py`: the tail of `create_tour` that runs when
    no idempotent replay happened (rate-limit cleanup and check, overlap
    check, then the commit: save tour, bump counter, save record). -/
def commitPhase (a : CreateArgs) (now start_at_utc end_at_utc : Nat)
    (fp : String) (s : St) : St × Except AppErr (Tour × Bool) :=
  let s2 : St := { s with rateLimits := cleanup_rate_limits now s.rateLimits }
  let d := utcDay now
  match getOrCreateRateLimit a.customer_id d s2 with
  | (s3, counter) =>
    if 3 ≤ counter.count then
      (s3, Except.error (AppErr.rateLimit "daily tour creation limit reached"))
    else if hasOverlap a.property_id start_at_utc end_at_utc s3.tours then
      (s3, Except.error (AppErr.conflict "overlapping tour for property"))
    else
      let tour : Tour :=
        { id := s3.nextId, property_id := a.property_id,
          customer_id := a.customer_id, start_at := start_at_utc,
          end_at := end_at_utc, status := TourStatus.booked,
          created_at := now, updated_at := now }
      let s4 : St := { s3 with tours := upsertA s3.tours tour.id tour,
                               nextId := s3.nextId + 1 }
      let bumped : RateLimitCounter :=
        { customer_id := a.customer_id, day := d, count := counter.count + 1 }
      let s5 : St :=
        { s4 with rateLimits := upsertA s4.rateLimits (a.customer_id, d) bumped }
      let s6 : St :=
        match a.idempotency_key with
        | none => s5
        | some k =>
          if k = "" then s5
          else
            let rec0 : IdempotencyRecord :=
              { key := k, tour_id := tour.id, fingerprint := fp,
                created_at := now, expires_at := now + 86400 }
            { s5 with idem := upsertA s5.idem k rec0 }
      (s6, Except.ok (tour, true))

/-- Method `TourService.create_tour`. -/
def create_tour (a : CreateArgs) (now : Nat) (s : St) :
    St × Except AppErr (Tour × Bool) :=
  match ensure_utc a.start_at "start_at" with
  | Except.error e => (s, Except.error e)
  | Except.ok start_at_utc =>
    match ensure_utc a.end_at "end_at" with
    | Except.error e => (s, Except.error e)
    | Except.ok end_at_utc =>
      if end_at_utc ≤ start_at_utc then
        (s, Except.error (AppErr.badRequest "end_at must be after start_at" "end_at"))
      else
        let fp := fingerprint a.property_id a.customer_id start_at_utc end_at_utc
        match idemProbe a now s with
        | (s1, some r) =>
          if r.fingerprint ≠ fp then
            (s1, Except.error
              (AppErr.conflict "idempotency key already used with different parameters"))
          else
            match lookupA s1.tours r.tour_id with
            | some t => (s1, Except.ok (t, false))
            | none => commitPhase a now start_at_utc end_at_utc fp s1
        | (s1, none) => commitPhase a now start_at_utc end_at_utc fp s1

/-- Method `TourService.get_tour`. -/
def get_tour (s : St) (tour_id : Nat) : Except AppErr Tour :=
  match lookupA s.tours tour_id with
  | none => Except.error (AppErr.notFound "tour not found")
  | some t => Except.ok t

/-- Method `TourService._matches_filters`: an (optional, truthy) exact
    property filter and an optional calendar-day filter using the same
    half-open overlap predicate against `[day, day+1)` in UTC. -/
def matchesFilters (t : Tour) (property_id : Option String)
    (date_filter : Option Nat) : Bool :=
  if optTruthy property_id && decide (t.property_id ≠ property_id.getD "") then
    false
  else
    match date_filter with
    | none => true
    | some d => overlaps t.start_at t.end_at (d * 86400) ((d + 1) * 86400)

/-- Ascending comparison used by `filtered.sort(key=lambda t: t.start_at)`. -/
def byStartAsc (a b : Tour) : Prop :=
  a.start_at ≤ b.start_at

/-- Descending comparison used when `reverse=True`. -/
def byStartDesc (a b : Tour) : Prop :=
  b.start_at ≤ a.start_at

instance : DecidableRel byStartAsc :=
  fun a b => Nat.decLe a.start_at b.start_at

instance : DecidableRel byStartDesc :=
  fun a b => Nat.decLe b.start_at a.start_at

instance : IsTotal Tour byStartAsc :=
  ⟨fun a b => Nat.le_total a.start_at b.start_at⟩

instance : IsTrans Tour byStartAsc :=
  ⟨fun _ _ _ hab hbc => Nat.le_trans hab hbc⟩

instance : IsTotal Tour byStartDesc :=
  ⟨fun a b => Nat.le_total b.start_at a.start_at⟩

instance : IsTrans Tour byStartDesc :=
  ⟨fun _ _ _ hab hbc => Nat.le_trans hbc hab⟩

/-- Python `sort.startswith("-")`: the first character is a dash. -/
def startsWithDash (sort : String) : Bool :=
  match sort.data with
  | [] => false
  | c :: _ => c = '-'

/-- Python `sort[1:]`: the string without its first character. -/
def dropFirst (sort : String) : String :=
  String.mk (sort.data.drop 1)

/-- Method `TourService.list_tours`: snapshot, filter, stable sort by
    `start_at` (descending when the sort key is prefixed with a dash,
    mirroring Python's stable `list.sort`), then slice
    `[(page-1)*page_size, (page-1)*page_size + page_size)` and return the
    pre-slice count.  Pages are caller-validated to be at least 1
    (`schemas.TourListQuery`), matching the Nat subtraction used here. -/
def list_tours (s : St) (property_id : Option String) (date_filter : Option Nat)
    (sort : String) (page page_size : Nat) : Except AppErr (List Tour × Nat) :=
  let tours := valuesA s.tours
  let filtered := tours.filter fun t => matchesFilters t property_id date_filter
  let reverse := startsWithDash sort
  let sort_field := if reverse then dropFirst sort else sort
  if sort_field ≠ "start_at" then
    Except.error (AppErr.badRequest "unsupported sort field" "sort")
  else
    let sorted :=
      if reverse then List.insertionSort byStartDesc filtered
      else List.insertionSort byStartAsc filtered
    let total := filtered.length
    let start_index := (page - 1) * page_size
    Except.ok ((sorted.drop start_index).take page_size, total)

/-- Method `TourService.cancel_tour` (with `Tour.cancel` from `models.py`
    inlined: transition to Cancelled and refresh `updated_at` only when not
    already Cancelled), followed by `save_tour`. -/
def cancel_tour (s : St) (tour_id : Nat) (now : Nat) : St × Except AppErr Unit :=
  match lookupA s.tours tour_id with
  | none => (s, Except.error (AppErr.notFound "tour not found"))
  | some t =>
    let t2 : Tour :=
      if t.status ≠ TourStatus.cancelled then
        { t with status := TourStatus.cancelled, updated_at := now }
      else t
    ({ s with tours := upsertA s.tours t2.id t2 }, Except.ok ())

/-- One call against the service; `get` and `list` run no mutation in the
    source, so only `create` and `cancel` carry a clock value. -/
inductive Op where
  | create (a : CreateArgs) (now : Nat)
  | cancel (tour_id : Nat) (now : Nat)
  | get (tour_id : Nat)
  | list (property_id : Option String) (date_filter : Option Nat)
      (sort : String) (page page_size : Nat)

/-- The storage state an operation leaves behind. -/
def applyOp (op : Op) (s : St) : St :=
  match op with
  | Op.create a now => (create_tour a now s).1
  | Op.cancel tour_id now => (cancel_tour s tour_id now).1
  | Op.get _ => s
  | Op.list _ _ _ _ _ => s

/-- Run a sequence of operations from a state. -/
def execOps (ops : List Op) (s : St) : St :=
  ops.foldl (fun acc op => applyOp op acc) s

/-- Storage states reachable from process start. -/
def Reach (s : St) : Prop :=
  ∃ ops : List Op, execOps ops initSt = s

/-- The effective rate-limit count for `(customer, day)` (0 when absent,
    matching the lazily-created counter's initial count). -/
def effCount (s : St) (customer_id : String) (d : Nat) : Nat :=
  match lookupA s.rateLimits (customer_id, d) with
  | some c => c.count
  | none => 0

/-- Did a create call succeed with `was_created = True`? -/
def isFreshOk : Except AppErr (Tour × Bool) → Bool
  | Except.ok (_, true) => true
  | _ => false

/-- Run a batch of create calls (each with its own clock reading),
    collecting the outcomes. -/
def runCreates (l : List (CreateArgs × Nat)) (s : St) :
    St × List (Except AppErr (Tour × Bool)) :=
  match l with
  | [] => (s, [])
  | (a, now) :: rest =>
    let step := create_tour a now s
    let tail := runCreates rest step.1
    (tail.1, step.2 :: tail.2)

/-- How many calls of the batch come back `was_created = True` for the
    given customer. -/
def freshSuccessesFor (c : String) (l : List (CreateArgs × Nat)) (s : St) : Nat :=
  match l with
  | [] => 0
  | (a, now) :: rest =>
    (if a.customer_id = c && isFreshOk (create_tour a now s).2 then 1 else 0)
      + freshSuccessesFor c rest (create_tour a now s).1

section AssocLemmas

variable {κ ν : Type} [DecidableEq κ]

theorem lookupA_upsertA_self (l : List (κ × ν)) (k : κ) (v : ν) :
    lookupA (upsertA l k v) k = some v := by
  induction l with
  | nil => simp [lookupA, upsertA]
  | cons p t ih =>
    obtain ⟨a, b⟩ := p
    by_cases hak : a = k
    · simp [lookupA, upsertA, hak]
    · simp [lookupA, upsertA, hak, ih]

theorem lookupA_upsertA_ne (l : List (κ × ν)) (k k2 : κ) (v : ν) (h : k2 ≠ k) :
    lookupA (upsertA l k v) k2 = lookupA l k2 := by
  induction l with
  | nil => simp [lookupA, upsertA, Ne.symm h]
  | cons p t ih =>
    obtain ⟨a, b⟩ := p
    by_cases hak : a = k
    · subst hak
      simp [lookupA, upsertA, Ne.symm h]
    · simp [lookupA, upsertA, hak, ih]

theorem upsertA_self_of_lookup (l : List (κ × ν)) (k : κ) (v : ν)
    (h : lookupA l k = some v) : upsertA l k v = l := by
  induction l with
  | nil => simp [lookupA] at h
  | cons p t ih =>
    obtain ⟨a, b⟩ := p
    by_cases hak : a = k
    · subst hak
      simp [lookupA] at h
      simp [upsertA, h]
    · simp [lookupA, hak] at h
      simp [upsertA, hak, ih h]

theorem lookupA_eraseA_ne (l : List (κ × ν)) (k k2 : κ) (h : k2 ≠ k) :
    lookupA (eraseA l k) k2 = lookupA l k2 := by
  induction l with
  | nil => simp [eraseA]
  | cons p t ih =>
    obtain ⟨a, b⟩ := p
    by_cases hak : a = k
    · subst hak
      simp [lookupA, eraseA, Ne.symm h]
    · simp [lookupA, eraseA, hak, ih]

theorem lookupA_none_iff (l : List (κ × ν)) (k : κ) :
    lookupA l k = none ↔ k ∉ l.map Prod.fst := by
  induction l with
  | nil => simp [lookupA]
  | cons p t ih =>
    obtain ⟨a, b⟩ := p
    by_cases hak : a = k
    · subst hak
      simp [lookupA]
    · simp [lookupA, hak, ih, Ne.symm hak]

theorem lookupA_eraseA_self_of_nodup (l : List (κ × ν)) (k : κ)
    (h : (l.map Prod.fst).Nodup) : lookupA (eraseA l k) k = none := by
  induction l with
  | nil => simp [eraseA, lookupA]
  | cons p t ih =>
    obtain ⟨a, b⟩ := p
    simp at h
    by_cases hak : a = k
    · subst hak
      simp [eraseA, lookupA_none_iff]
      exact h.1
    · simp [eraseA, hak, lookupA, ih h.2]

theorem lookupA_some_mem (l : List (κ × ν)) (k : κ) (v : ν)
    (h : lookupA l k = some v) : (k, v) ∈ l := by
  induction l with
  | nil => simp [lookupA] at h
  | cons p t ih =>
    obtain ⟨a, b⟩ := p
    by_cases hak : a = k
    · subst hak
      simp [lookupA] at h
      simp [h]
    · simp [lookupA, hak] at h
      exact List.mem_cons_of_mem _ (ih h)

theorem keys_upsertA (l : List (κ × ν)) (k : κ) (v : ν) :
    (upsertA l k v).map Prod.fst =
      if k ∈ l.map Prod.fst then l.map Prod.fst else l.map Prod.fst ++ [k] := by
  induction l with
  | nil => simp [upsertA]
  | cons p t ih =>
    obtain ⟨a, b⟩ := p
    by_cases hak : a = k
    · subst hak
      simp [upsertA]
    · simp [upsertA, hak, ih]
      by_cases hmem : k ∈ t.map Prod.fst
      · simp [hmem, Ne.symm hak]
      · simp [hmem, Ne.symm hak]

theorem keys_upsertA_nodup (l : List (κ × ν)) (k : κ) (v : ν)
    (h : (l.map Prod.fst).Nodup) : ((upsertA l k v).map Prod.fst).Nodup := by
  rw [keys_upsertA]
  by_cases hmem : k ∈ l.map Prod.fst
  · simpa [hmem] using h
  · simp [List.nodup_append, h, hmem]

theorem eraseA_keys_sublist (l : List (κ × ν)) (k : κ) :
    ((eraseA l k).map Prod.fst).Sublist (l.map Prod.fst) := by
  induction l with
  | nil => simp [eraseA]
  | cons p t ih =>
    obtain ⟨a, b⟩ := p
    by_cases hak : a = k
    · simp [eraseA, hak]
    · simp [eraseA, hak]
      exact ih

theorem keys_eraseA_nodup (l : List (κ × ν)) (k : κ)
    (h : (l.map Prod.fst).Nodup) : ((eraseA l k).map Prod.fst).Nodup :=
  (eraseA_keys_sublist l k).nodup h

end AssocLemmas

theorem lookupA_cleanup (now : Nat) (l : List ((String × Nat) × RateLimitCounter))
    (key : String × Nat) :
    lookupA (cleanup_rate_limits now l) key =
      if utcDay now ≤ key.2 then lookupA l key else none := by
  induction l with
  | nil => simp [cleanup_rate_limits, lookupA]
  | cons p t ih =>
    obtain ⟨⟨c, d⟩, ctr⟩ := p
    simp only [cleanup_rate_limits] at ih ⊢
    by_cases hkeep : utcDay now ≤ d
    · by_cases hk : (c, d) = key
      · subst hk
        simp [List.filter, lookupA, hkeep]
      · simp [List.filter, lookupA, hkeep, hk, ih]
    · by_cases hk : (c, d) = key
      · subst hk
        simp [List.filter, lookupA, hkeep, ih]
      · simp [List.filter, lookupA, hkeep, hk, ih]

theorem hasOverlap_iff (property_id : String) (start_at end_at : Nat)
    (tours : List (Nat × Tour)) :
    hasOverlap property_id start_at end_at tours = true ↔
      ∃ p ∈ tours, p.2.property_id = property_id ∧ p.2.status = TourStatus.booked ∧
        p.2.start_at < end_at ∧ start_at < p.2.end_at := by
  simp [hasOverlap, overlaps, List.any_eq_true, and_assoc]

theorem idemProbe_fst (a : CreateArgs) (now : Nat) (s : St) :
    (idemProbe a now s).1.tours = s.tours ∧
      (idemProbe a now s).1.rateLimits = s.rateLimits ∧
      (idemProbe a now s).1.nextId = s.nextId := by
  rcases hkey : a.idempotency_key with _ | k
  · simp [idemProbe, hkey]
  · by_cases hk : k = ""
    · simp [idemProbe, hkey, hk]
    · simp only [idemProbe, hkey]
      rw [if_neg hk]
      simp only [get_idempotency_record]
      rcases hl : lookupA s.idem k with _ | r
      · simp
      · by_cases hexp : r.expires_at ≤ now <;> simp [hexp]

theorem idemProbe_some_inv (a : CreateArgs) (now : Nat) (s : St)
    (r : IdempotencyRecord) (h : (idemProbe a now s).2 = some r) :
    (idemProbe a now s).1 = s ∧
      ∃ k, a.idempotency_key = some k ∧ k ≠ "" ∧
        lookupA s.idem k = some r ∧ now < r.expires_at := by
  rcases hkey : a.idempotency_key with _ | k
  · simp [idemProbe, hkey] at h
  · by_cases hk : k = ""
    · simp [idemProbe, hkey, hk] at h
    · rcases hl : lookupA s.idem k with _ | r2
      · have hp : idemProbe a now s = (s, none) := by
          simp only [idemProbe, hkey]
          rw [if_neg hk]
          simp only [get_idempotency_record]
          rw [hl]
        rw [hp] at h
        simp at h
      · by_cases hexp : r2.expires_at ≤ now
        · have hp : idemProbe a now s =
              ({ s with idem := eraseA s.idem k }, none) := by
            simp only [idemProbe, hkey]
            rw [if_neg hk]
            simp only [get_idempotency_record]
            rw [hl]
            simp [hexp]
          rw [hp] at h
          simp at h
        · have hp : idemProbe a now s = (s, some r2) := by
            simp only [idemProbe, hkey]
            rw [if_neg hk]
            simp only [get_idempotency_record]
            rw [hl]
            simp [hexp]
          rw [hp] at h
          simp at h
          subst h
          rw [hp]
          exact ⟨rfl, k, rfl, hk, hl, Nat.lt_of_not_le hexp⟩

theorem idemProbe_none_idem (a : CreateArgs) (now : Nat) (s : St)
    (h : (idemProbe a now s).2 = none) :
    (idemProbe a now s).1.idem = s.idem ∨
      ∃ k r, a.idempotency_key = some k ∧ k ≠ "" ∧
        lookupA s.idem k = some r ∧ r.expires_at ≤ now ∧
        (idemProbe a now s).1.idem = eraseA s.idem k := by
  rcases hkey : a.idempotency_key with _ | k
  · simp [idemProbe, hkey]
  · by_cases hk : k = ""
    · simp [idemProbe, hkey, hk]
    · rcases hl : lookupA s.idem k with _ | r2
      · have hp : idemProbe a now s = (s, none) := by
          simp only [idemProbe, hkey]
          rw [if_neg hk]
          simp only [get_idempotency_record]
          rw [hl]
        rw [hp]
        exact Or.inl rfl
      · by_cases hexp : r2.expires_at ≤ now
        · have hp : idemProbe a now s =
              ({ s with idem := eraseA s.idem k }, none) := by
            simp only [idemProbe, hkey]
            rw [if_neg hk]
            simp only [get_idempotency_record]
            rw [hl]
            simp [hexp]
          rw [hp]
          exact Or.inr ⟨k, r2, rfl, hk, hl, hexp, rfl⟩
        · have hp : idemProbe a now s = (s, some r2) := by
            simp only [idemProbe, hkey]
            rw [if_neg hk]
            simp only [get_idempotency_record]
            rw [hl]
            simp [hexp]
          rw [hp] at h
          simp at h

theorem upsertA_upsertA {κ ν : Type} [DecidableEq κ] (l : List (κ × ν)) (k : κ) (v v2 : ν) :
    upsertA (upsertA l k v) k v2 = upsertA l k v2 := by
  induction l with
  | nil => simp [upsertA]
  | cons p t ih =>
    obtain ⟨a, b⟩ := p
    by_cases hak : a = k
    · simp [upsertA, hak]
    · simp [upsertA, hak, ih]

theorem effCount_cleanup (now : Nat) (s : St) (c : String) (d : Nat)
    (h : utcDay now ≤ d) :
    effCount { s with rateLimits := cleanup_rate_limits now s.rateLimits } c d =
      effCount s c d := by
  simp [effCount, lookupA_cleanup, h]

theorem getOrCreate_others (cust : String) (d : Nat) (s : St) :
    (getOrCreateRateLimit cust d s).1.tours = s.tours ∧
      (getOrCreateRateLimit cust d s).1.idem = s.idem ∧
      (getOrCreateRateLimit cust d s).1.nextId = s.nextId := by
  unfold getOrCreateRateLimit
  rcases hl : lookupA s.rateLimits (cust, d) with _ | c <;> simp

theorem getOrCreate_count (cust : String) (d : Nat) (s : St) :
    (getOrCreateRateLimit cust d s).2.count = effCount s cust d := by
  unfold getOrCreateRateLimit effCount
  rcases hl : lookupA s.rateLimits (cust, d) with _ | c <;> simp

theorem commit_rateLimited (a : CreateArgs) (now sU eU : Nat) (fp : String) (s : St)
    (h3 : 3 ≤ effCount s a.customer_id (utcDay now)) :
    commitPhase a now sU eU fp s =
      ({ s with rateLimits := cleanup_rate_limits now s.rateLimits },
       Except.error (AppErr.rateLimit "daily tour creation limit reached")) := by
  rcases hl : lookupA s.rateLimits (a.customer_id, utcDay now) with _ | ctr
  · simp [effCount, hl] at h3
  · have hcnt : 3 ≤ ctr.count := by simpa [effCount, hl] using h3
    have hg : getOrCreateRateLimit a.customer_id (utcDay now)
        { s with rateLimits := cleanup_rate_limits now s.rateLimits } =
        ({ s with rateLimits := cleanup_rate_limits now s.rateLimits }, ctr) := by
      unfold getOrCreateRateLimit
      simp [lookupA_cleanup, hl]
    simp only [commitPhase]
    rw [hg]
    simp [hcnt]

theorem commit_conflict (a : CreateArgs) (now sU eU : Nat) (fp : String) (s : St)
    (h3 : effCount s a.customer_id (utcDay now) < 3)
    (hov : hasOverlap a.property_id sU eU s.tours = true) :
    commitPhase a now sU eU fp s =
      ((getOrCreateRateLimit a.customer_id (utcDay now)
          { s with rateLimits := cleanup_rate_limits now s.rateLimits }).1,
       Except.error (AppErr.conflict "overlapping tour for property")) := by
  have hcnt : (getOrCreateRateLimit a.customer_id (utcDay now)
      { s with rateLimits := cleanup_rate_limits now s.rateLimits }).2.count < 3 := by
    rw [getOrCreate_count]
    rw [effCount_cleanup now s a.customer_id (utcDay now) (Nat.le_refl _)]
    exact h3
  have htours : (getOrCreateRateLimit a.customer_id (utcDay now)
      { s with rateLimits := cleanup_rate_limits now s.rateLimits }).1.tours = s.tours :=
    (getOrCreate_others _ _ _).1
  simp only [commitPhase]
  rcases hg : getOrCreateRateLimit a.customer_id (utcDay now)
      { s with rateLimits := cleanup_rate_limits now s.rateLimits } with ⟨s3, ctr⟩
  rw [hg] at hcnt htours
  simp only at hcnt htours
  rw [if_neg (Nat.not_le_of_lt hcnt)]
  rw [htours, hov]
  simp

theorem commit_success (a : CreateArgs) (now sU eU : Nat) (fp : String) (s : St)
    (h3 : effCount s a.customer_id (utcDay now) < 3)
    (hov : hasOverlap a.property_id sU eU s.tours = false) :
    commitPhase a now sU eU fp s =
      ({ tours := upsertA s.tours s.nextId
           { id := s.nextId, property_id := a.property_id,
             customer_id := a.customer_id, start_at := sU, end_at := eU,
             status := TourStatus.booked, created_at := now, updated_at := now },
         idem :=
           match a.idempotency_key with
           | none => s.idem
           | some k =>
             if k = "" then s.idem
             else upsertA s.idem k
               { key := k, tour_id := s.nextId, fingerprint := fp,
                 created_at := now, expires_at := now + 86400 },
         rateLimits := upsertA (cleanup_rate_limits now s.rateLimits)
           (a.customer_id, utcDay now)
           { customer_id := a.customer_id, day := utcDay now,
             count := effCount s a.customer_id (utcDay now) + 1 },
         nextId := s.nextId + 1 },
       Except.ok
         ({ id := s.nextId, property_id := a.property_id,
            customer_id := a.customer_id, start_at := sU, end_at := eU,
            status := TourStatus.booked, created_at := now, updated_at := now },
          true)) := by
  simp only [commitPhase]
  rcases hlook : lookupA s.rateLimits (a.customer_id, utcDay now) with _ | ctr
  · have hg : getOrCreateRateLimit a.customer_id (utcDay now)
        { s with rateLimits := cleanup_rate_limits now s.rateLimits } =
        ({ s with rateLimits := upsertA (cleanup_rate_limits now s.rateLimits) (a.customer_id, utcDay now) (⟨a.customer_id, utcDay now, 0⟩ : RateLimitCounter) },
         (⟨a.customer_id, utcDay now, 0⟩ : RateLimitCounter)) := by
      unfold getOrCreateRateLimit
      simp [lookupA_cleanup, hlook]
    rw [hg]
    have heff : effCount s a.customer_id (utcDay now) = 0 := by
      simp [effCount, hlook]
    simp only [heff]
    rw [if_neg (by simp)]
    rw [hov]
    simp only [Bool.false_eq_true, if_neg, if_false]
    simp only [upsertA_upsertA, heff]
    rcases a.idempotency_key with _ | k
    · simp
    · by_cases hk : k = "" <;> simp [hk]
  · have hg : getOrCreateRateLimit a.customer_id (utcDay now)
        { s with rateLimits := cleanup_rate_limits now s.rateLimits } =
        ({ s with rateLimits := cleanup_rate_limits now s.rateLimits }, ctr) := by
      unfold getOrCreateRateLimit
      simp [lookupA_cleanup, hlook]
    rw [hg]
    have heff : effCount s a.customer_id (utcDay now) = ctr.count := by
      simp [effCount, hlook]
    have hcnt : ¬3 ≤ ctr.count := by
      rw [← heff]
      exact Nat.not_le_of_lt h3
    rw [if_neg hcnt]
    rw [hov]
    simp only [heff, Bool.false_eq_true, if_neg, if_false]
    rcases a.idempotency_key with _ | k
    · simp
    · by_cases hk : k = "" <;> simp [hk]

theorem create_tour_naive_start (a : CreateArgs) (now : Nat) (s : St)
    (h : a.start_at.aware = false) :
    create_tour a now s =
      (s, Except.error (AppErr.badRequest "timestamp must be timezone-aware" "start_at")) := by
  simp [create_tour, ensure_utc, h]

theorem create_tour_naive_end (a : CreateArgs) (now : Nat) (s : St)
    (h1 : a.start_at.aware = true) (h2 : a.end_at.aware = false) :
    create_tour a now s =
      (s, Except.error (AppErr.badRequest "timestamp must be timezone-aware" "end_at")) := by
  simp [create_tour, ensure_utc, h1, h2]

theorem create_tour_bad_order (a : CreateArgs) (now : Nat) (s : St)
    (h1 : a.start_at.aware = true) (h2 : a.end_at.aware = true)
    (h : a.end_at.instant ≤ a.start_at.instant) :
    create_tour a now s =
      (s, Except.error (AppErr.badRequest "end_at must be after start_at" "end_at")) := by
  simp [create_tour, ensure_utc, h1, h2, h]

theorem create_tour_valid (a : CreateArgs) (now : Nat) (s : St)
    (h1 : a.start_at.aware = true) (h2 : a.end_at.aware = true)
    (h3 : a.start_at.instant < a.end_at.instant) :
    create_tour a now s =
      (match idemProbe a now s with
       | (s1, some r) =>
         if r.fingerprint ≠
             fingerprint a.property_id a.customer_id a.start_at.instant a.end_at.instant then
           (s1, Except.error
             (AppErr.conflict "idempotency key already used with different parameters"))
         else
           match lookupA s1.tours r.tour_id with
           | some t => (s1, Except.ok (t, false))
           | none => commitPhase a now a.start_at.instant a.end_at.instant
               (fingerprint a.property_id a.customer_id a.start_at.instant a.end_at.instant) s1
       | (s1, none) => commitPhase a now a.start_at.instant a.end_at.instant
           (fingerprint a.property_id a.customer_id a.start_at.instant a.end_at.instant) s1) := by
  simp only [create_tour, ensure_utc, h1, h2, if_true]
  rw [if_neg (Nat.not_le_of_lt h3)]

theorem create_tour_fresh (a : CreateArgs) (now : Nat) (s : St)
    (h1 : a.start_at.aware = true) (h2 : a.end_at.aware = true)
    (h3 : a.start_at.instant < a.end_at.instant)
    (hprobe : (idemProbe a now s).2 = none) :
    create_tour a now s =
      commitPhase a now a.start_at.instant a.end_at.instant
        (fingerprint a.property_id a.customer_id a.start_at.instant a.end_at.instant)
        (idemProbe a now s).1 := by
  rw [create_tour_valid a now s h1 h2 h3]
  rcases hp : idemProbe a now s with ⟨s1, o⟩
  rw [hp] at hprobe
  simp only at hprobe
  subst hprobe
  simp

theorem create_tour_replay (a : CreateArgs) (now : Nat) (s : St)
    (k : String) (r : IdempotencyRecord) (t : Tour)
    (h1 : a.start_at.aware = true) (h2 : a.end_at.aware = true)
    (h3 : a.start_at.instant < a.end_at.instant)
    (hk : a.idempotency_key = some k) (hk2 : k ≠ "")
    (hl : lookupA s.idem k = some r) (hexp : now < r.expires_at)
    (hfp : r.fingerprint =
      fingerprint a.property_id a.customer_id a.start_at.instant a.end_at.instant)
    (ht : lookupA s.tours r.tour_id = some t) :
    create_tour a now s = (s, Except.ok (t, false)) := by
  have hp : idemProbe a now s = (s, some r) := by
    simp only [idemProbe, hk]
    rw [if_neg hk2]
    simp only [get_idempotency_record]
    rw [hl]
    simp [Nat.not_le_of_lt hexp]
  rw [create_tour_valid a now s h1 h2 h3, hp]
  simp only [hfp, ne_eq, not_true_eq_false, if_neg, if_false, ht]

theorem create_tour_fp_conflict (a : CreateArgs) (now : Nat) (s : St)
    (k : String) (r : IdempotencyRecord)
    (h1 : a.start_at.aware = true) (h2 : a.end_at.aware = true)
    (h3 : a.start_at.instant < a.end_at.instant)
    (hk : a.idempotency_key = some k) (hk2 : k ≠ "")
    (hl : lookupA s.idem k = some r) (hexp : now < r.expires_at)
    (hfp : r.fingerprint ≠
      fingerprint a.property_id a.customer_id a.start_at.instant a.end_at.instant) :
    create_tour a now s =
      (s, Except.error
        (AppErr.conflict "idempotency key already used with different parameters")) := by
  have hp : idemProbe a now s = (s, some r) := by
    simp only [idemProbe, hk]
    rw [if_neg hk2]
    simp only [get_idempotency_record]
    rw [hl]
    simp [Nat.not_le_of_lt hexp]
  rw [create_tour_valid a now s h1 h2 h3, hp]
  simp [hfp]

theorem getOrCreate_lookup (cust : String) (d : Nat) (s : St) (key : String × Nat)
    (c2 : RateLimitCounter)
    (h : lookupA (getOrCreateRateLimit cust d s).1.rateLimits key = some c2) :
    lookupA s.rateLimits key = some c2 ∨
      (c2 = { customer_id := cust, day := d, count := 0 } ∧ key = (cust, d)) := by
  unfold getOrCreateRateLimit at h
  rcases hl : lookupA s.rateLimits (cust, d) with _ | c
  · rw [hl] at h
    simp only at h
    by_cases hkey : key = (cust, d)
    · subst hkey
      rw [lookupA_upsertA_self] at h
      simp at h
      exact Or.inr ⟨h.symm, rfl⟩
    · rw [lookupA_upsertA_ne _ _ _ _ hkey] at h
      exact Or.inl h
  · rw [hl] at h
    simp only at h
    exact Or.inl h

theorem lookupA_eraseA_some {κ ν : Type} [DecidableEq κ] (l : List (κ × ν))
    (k k2 : κ) (v : ν) (hnd : (l.map Prod.fst).Nodup)
    (h : lookupA (eraseA l k) k2 = some v) : lookupA l k2 = some v := by
  by_cases hk : k2 = k
  · subst hk
    rw [lookupA_eraseA_self_of_nodup l k2 hnd] at h
    exact absurd h (by simp)
  · rw [lookupA_eraseA_ne l k k2 hk] at h
    exact h

theorem commit_ok_post (a : CreateArgs) (now sU eU : Nat) (fp : String)
    (sp s1 : St) (t : Tour) (b : Bool)
    (h : commitPhase a now sU eU fp sp = (s1, Except.ok (t, b))) :
    b = true ∧
      t = { id := sp.nextId, property_id := a.property_id,
            customer_id := a.customer_id, start_at := sU, end_at := eU,
            status := TourStatus.booked, created_at := now, updated_at := now } ∧
      s1.tours = upsertA sp.tours sp.nextId t ∧
      s1.nextId = sp.nextId + 1 ∧
      (∀ k, a.idempotency_key = some k → k ≠ "" →
        s1.idem = upsertA sp.idem k
          { key := k, tour_id := sp.nextId, fingerprint := fp,
            created_at := now, expires_at := now + 86400 }) ∧
      ((a.idempotency_key = none ∨ a.idempotency_key = some "") → s1.idem = sp.idem) ∧
      s1.rateLimits = upsertA (cleanup_rate_limits now sp.rateLimits)
        (a.customer_id, utcDay now)
        { customer_id := a.customer_id, day := utcDay now,
          count := effCount sp a.customer_id (utcDay now) + 1 } ∧
      effCount sp a.customer_id (utcDay now) < 3 ∧
      hasOverlap a.property_id sU eU sp.tours = false := by
  by_cases h3 : 3 ≤ effCount sp a.customer_id (utcDay now)
  · rw [commit_rateLimited a now sU eU fp sp h3] at h
    exact absurd h (by simp)
  · have h3lt := Nat.lt_of_not_le h3
    cases hov : hasOverlap a.property_id sU eU sp.tours with
    | true =>
      rw [commit_conflict a now sU eU fp sp h3lt hov] at h
      exact absurd h (by simp)
    | false =>
      rw [commit_success a now sU eU fp sp h3lt hov] at h
      rw [Prod.ext_iff] at h
      obtain ⟨hstate, hres⟩ := h
      simp only at hstate hres
      simp only [Except.ok.injEq, Prod.mk.injEq] at hres
      obtain ⟨ht, hb⟩ := hres
      subst ht
      subst hb
      refine ⟨rfl, rfl, ?_, ?_, ?_, ?_, ?_, h3lt, rfl⟩
      · rw [← hstate]
      · rw [← hstate]
      · intro k hk hk2
        rw [← hstate]
        simp [hk, hk2]
      · intro hcase
        rw [← hstate]
        rcases hcase with hc | hc <;> simp [hc]
      · rw [← hstate]

theorem commit_error_post (a : CreateArgs) (now sU eU : Nat) (fp : String)
    (sp s2 : St) (e : AppErr)
    (h : commitPhase a now sU eU fp sp = (s2, Except.error e)) :
    s2.tours = sp.tours ∧ s2.idem = sp.idem ∧ s2.nextId = sp.nextId ∧
      (∀ key c2, lookupA s2.rateLimits key = some c2 →
        lookupA sp.rateLimits key = some c2 ∨
          (c2.count = 0 ∧ key = (a.customer_id, utcDay now))) := by
  by_cases h3 : 3 ≤ effCount sp a.customer_id (utcDay now)
  · rw [commit_rateLimited a now sU eU fp sp h3] at h
    rw [Prod.ext_iff] at h
    obtain ⟨hstate, hres⟩ := h
    simp only at hstate
    refine ⟨by rw [← hstate], by rw [← hstate], by rw [← hstate], ?_⟩
    intro key c2 hc2
    rw [← hstate] at hc2
    simp only at hc2
    rw [lookupA_cleanup] at hc2
    by_cases hday : utcDay now ≤ key.2
    · rw [if_pos hday] at hc2
      exact Or.inl hc2
    · rw [if_neg hday] at hc2
      exact absurd hc2 (by simp)
  · have h3lt := Nat.lt_of_not_le h3
    cases hov : hasOverlap a.property_id sU eU sp.tours with
    | false =>
      rw [commit_success a now sU eU fp sp h3lt hov] at h
      exact absurd (congrArg Prod.snd h) (by simp)
    | true =>
      rw [commit_conflict a now sU eU fp sp h3lt hov] at h
      rw [Prod.ext_iff] at h
      obtain ⟨hstate, hres⟩ := h
      simp only at hstate hres
      have hOth := getOrCreate_others a.customer_id (utcDay now)
        { sp with rateLimits := cleanup_rate_limits now sp.rateLimits }
      refine ⟨?_, ?_, ?_, ?_⟩
      · rw [← hstate]
        exact hOth.1
      · rw [← hstate]
        exact hOth.2.1
      · rw [← hstate]
        exact hOth.2.2
      · intro key c2 hc2
        rw [← hstate] at hc2
        rcases getOrCreate_lookup _ _ _ _ _ hc2 with hin | ⟨hc0, hkey⟩
        · simp only at hin
          rw [lookupA_cleanup] at hin
          by_cases hday : utcDay now ≤ key.2
          · rw [if_pos hday] at hin
            exact Or.inl hin
          · rw [if_neg hday] at hin
            exact absurd hin (by simp)
        · refine Or.inr ⟨?_, hkey⟩
          rw [hc0]

theorem create_success_key_post (a : CreateArgs) (now : Nat) (s0 s1 : St)
    (t : Tour) (k : String)
    (hk : a.idempotency_key = some k) (hk2 : k ≠ "")
    (h : create_tour a now s0 = (s1, Except.ok (t, true))) :
    a.start_at.aware = true ∧ a.end_at.aware = true ∧
      a.start_at.instant < a.end_at.instant ∧
      lookupA s1.idem k = some { key := k, tour_id := t.id, fingerprint := fingerprint a.property_id a.customer_id a.start_at.instant a.end_at.instant, created_at := now, expires_at := now + 86400 } ∧
      lookupA s1.tours t.id = some t := by
  cases haw1 : a.start_at.aware with
  | false =>
    rw [create_tour_naive_start a now s0 haw1] at h
    exact absurd h (by simp)
  | true =>
    cases haw2 : a.end_at.aware with
    | false =>
      rw [create_tour_naive_end a now s0 haw1 haw2] at h
      exact absurd h (by simp)
    | true =>
      by_cases hord : a.start_at.instant < a.end_at.instant
      case neg =>
        rw [create_tour_bad_order a now s0 haw1 haw2 (Nat.le_of_not_lt hord)] at h
        exact absurd h (by simp)
      case pos =>
        refine ⟨rfl, rfl, hord, ?_⟩
        rw [create_tour_valid a now s0 haw1 haw2 hord] at h
        rcases hp : idemProbe a now s0 with ⟨sp, o⟩
        rw [hp] at h
        have hcommit : commitPhase a now a.start_at.instant a.end_at.instant
            (fingerprint a.property_id a.customer_id a.start_at.instant a.end_at.instant)
            sp = (s1, Except.ok (t, true)) := by
          cases o with
          | none => exact h
          | some r =>
            simp only at h
            by_cases hfp : r.fingerprint ≠
                fingerprint a.property_id a.customer_id a.start_at.instant a.end_at.instant
            · rw [if_pos hfp] at h
              exact absurd h (by simp)
            · rw [if_neg hfp] at h
              rcases hto : lookupA sp.tours r.tour_id with _ | t2
              · rw [hto] at h
                exact h
              · rw [hto] at h
                simp only [Prod.mk.injEq, Except.ok.injEq] at h
                exact absurd h.2.2 (by simp)
        obtain ⟨hb, ht, htours, hnext, hidemk, hidemnone, hrl, hcnt, hovl⟩ :=
          commit_ok_post a now a.start_at.instant a.end_at.instant
            (fingerprint a.property_id a.customer_id a.start_at.instant a.end_at.instant)
            sp s1 t true hcommit
        constructor
        · rw [hidemk k hk hk2, ht]
          simp only
          exact lookupA_upsertA_self sp.idem k _
        · rw [htours, ht]
          simp only
          exact lookupA_upsertA_self sp.tours sp.nextId _

theorem create_error_post (a : CreateArgs) (now : Nat) (s s2 : St) (e : AppErr)
    (hnd : (s.idem.map Prod.fst).Nodup)
    (h : create_tour a now s = (s2, Except.error e)) :
    s2.tours = s.tours ∧ s2.nextId = s.nextId ∧
      (∀ k2 r2, lookupA s2.idem k2 = some r2 → lookupA s.idem k2 = some r2) ∧
      (∀ key c2, lookupA s2.rateLimits key = some c2 →
        lookupA s.rateLimits key = some c2 ∨
          (c2.count = 0 ∧ key = (a.customer_id, utcDay now))) := by
  cases haw1 : a.start_at.aware with
  | false =>
    rw [create_tour_naive_start a now s haw1] at h
    have hs : s = s2 := congrArg Prod.fst h
    subst hs
    exact ⟨rfl, rfl, fun k2 r2 h2 => h2, fun key c2 h2 => Or.inl h2⟩
  | true =>
    cases haw2 : a.end_at.aware with
    | false =>
      rw [create_tour_naive_end a now s haw1 haw2] at h
      have hs : s = s2 := congrArg Prod.fst h
      subst hs
      exact ⟨rfl, rfl, fun k2 r2 h2 => h2, fun key c2 h2 => Or.inl h2⟩
    | true =>
      by_cases hord : a.start_at.instant < a.end_at.instant
      case neg =>
        rw [create_tour_bad_order a now s haw1 haw2 (Nat.le_of_not_lt hord)] at h
        have hs : s = s2 := congrArg Prod.fst h
        subst hs
        exact ⟨rfl, rfl, fun k2 r2 h2 => h2, fun key c2 h2 => Or.inl h2⟩
      case pos =>
        rw [create_tour_valid a now s haw1 haw2 hord] at h
        rcases hp : idemProbe a now s with ⟨sp, o⟩
        rw [hp] at h
        have hfst := idemProbe_fst a now s
        rw [hp] at hfst
        simp only at hfst
        obtain ⟨hspt, hsprl, hspn⟩ := hfst
        cases o with
        | some r =>
          have hsome := idemProbe_some_inv a now s r (by rw [hp])
          rw [hp] at hsome
          simp only at hsome
          have hsp : sp = s := hsome.1
          subst hsp
          simp only at h
          by_cases hfp : r.fingerprint ≠
              fingerprint a.property_id a.customer_id a.start_at.instant a.end_at.instant
          · rw [if_pos hfp] at h
            have hs : sp = s2 := congrArg Prod.fst h
            subst hs
            exact ⟨rfl, rfl, fun k2 r2 h2 => h2, fun key c2 h2 => Or.inl h2⟩
          · rw [if_neg hfp] at h
            rcases hto : lookupA sp.tours r.tour_id with _ | t2
            · rw [hto] at h
              obtain ⟨h1, h2, h3, h4⟩ := commit_error_post a now a.start_at.instant
                a.end_at.instant _ sp s2 e h
              exact ⟨h1, h3, fun k2 r2 hx => h2 ▸ hx, h4⟩
            · rw [hto] at h
              exact absurd (congrArg Prod.snd h) (by simp)
        | none =>
          have hidem := idemProbe_none_idem a now s (by rw [hp])
          rw [hp] at hidem
          simp only at hidem
          obtain ⟨h1, h2, h3, h4⟩ := commit_error_post a now a.start_at.instant
            a.end_at.instant _ sp s2 e h
          refine ⟨h1.trans hspt, h3.trans hspn, ?_, ?_⟩
          · intro k2 r2 hx
            rw [h2] at hx
            rcases hidem with hsame | ⟨k, rx, hkx, hkx2, hlx, hexpx, herase⟩
            · rw [hsame] at hx
              exact hx
            · rw [herase] at hx
              exact lookupA_eraseA_some s.idem k k2 r2 hnd hx
          · intro key c2 hx
            rcases h4 key c2 hx with hin | hzero
            · rw [hsprl] at hin
              exact Or.inl hin
            · exact Or.inr hzero

theorem create_tour_probe_some (a : CreateArgs) (now : Nat) (s sp : St)
    (r : IdempotencyRecord)
    (h1 : a.start_at.aware = true) (h2 : a.end_at.aware = true)
    (h3 : a.start_at.instant < a.end_at.instant)
    (hp : idemProbe a now s = (sp, some r)) :
    create_tour a now s =
      (if r.fingerprint ≠
          fingerprint a.property_id a.customer_id a.start_at.instant a.end_at.instant then
        (sp, Except.error
          (AppErr.conflict "idempotency key already used with different parameters"))
      else
        match lookupA sp.tours r.tour_id with
        | some t => (sp, Except.ok (t, false))
        | none => commitPhase a now a.start_at.instant a.end_at.instant
            (fingerprint a.property_id a.customer_id a.start_at.instant a.end_at.instant) sp) := by
  rw [create_tour_valid a now s h1 h2 h3, hp]

theorem effCount_getOrCreate (cust : String) (d : Nat) (x : St) (c : String) (d2 : Nat) :
    effCount (getOrCreateRateLimit cust d x).1 c d2 = effCount x c d2 := by
  unfold getOrCreateRateLimit
  rcases hl : lookupA x.rateLimits (cust, d) with _ | ctr
  · simp only
    by_cases hk : (c, d2) = (cust, d)
    · rw [Prod.mk.injEq] at hk
      obtain ⟨hc, hd⟩ := hk
      subst hc
      subst hd
      simp [effCount, lookupA_upsertA_self, hl]
    · simp only [effCount]
      rw [lookupA_upsertA_ne _ _ _ _ hk]
  · simp

theorem effCount_create (a : CreateArgs) (now : Nat) (s : St) :
    (isFreshOk (create_tour a now s).2 = true →
        effCount s a.customer_id (utcDay now) ≤ 2 ∧
        effCount (create_tour a now s).1 a.customer_id (utcDay now) =
          effCount s a.customer_id (utcDay now) + 1) ∧
      (isFreshOk (create_tour a now s).2 = false →
        effCount (create_tour a now s).1 a.customer_id (utcDay now) =
          effCount s a.customer_id (utcDay now)) ∧
      (∀ c, c ≠ a.customer_id →
        effCount (create_tour a now s).1 c (utcDay now) = effCount s c (utcDay now)) := by
  cases haw1 : a.start_at.aware with
  | false =>
    rw [create_tour_naive_start a now s haw1]
    simp [isFreshOk]
  | true =>
    cases haw2 : a.end_at.aware with
    | false =>
      rw [create_tour_naive_end a now s haw1 haw2]
      simp [isFreshOk]
    | true =>
      by_cases hord : a.start_at.instant < a.end_at.instant
      case neg =>
        rw [create_tour_bad_order a now s haw1 haw2 (Nat.le_of_not_lt hord)]
        simp [isFreshOk]
      case pos =>
        rcases hp : idemProbe a now s with ⟨sp, o⟩
        have hfst := idemProbe_fst a now s
        rw [hp] at hfst
        simp only at hfst
        have heffsp : ∀ x y, effCount sp x y = effCount s x y := by
          intro x y
          simp [effCount, hfst.2.1]
        have hcommit : (isFreshOk (commitPhase a now a.start_at.instant a.end_at.instant
              (fingerprint a.property_id a.customer_id a.start_at.instant a.end_at.instant)
              sp).2 = true →
            effCount s a.customer_id (utcDay now) ≤ 2 ∧
            effCount (commitPhase a now a.start_at.instant a.end_at.instant
              (fingerprint a.property_id a.customer_id a.start_at.instant a.end_at.instant)
              sp).1 a.customer_id (utcDay now) =
              effCount s a.customer_id (utcDay now) + 1) ∧
          (isFreshOk (commitPhase a now a.start_at.instant a.end_at.instant
              (fingerprint a.property_id a.customer_id a.start_at.instant a.end_at.instant)
              sp).2 = false →
            effCount (commitPhase a now a.start_at.instant a.end_at.instant
              (fingerprint a.property_id a.customer_id a.start_at.instant a.end_at.instant)
              sp).1 a.customer_id (utcDay now) =
              effCount s a.customer_id (utcDay now)) ∧
          (∀ c, c ≠ a.customer_id →
            effCount (commitPhase a now a.start_at.instant a.end_at.instant
              (fingerprint a.property_id a.customer_id a.start_at.instant a.end_at.instant)
              sp).1 c (utcDay now) =
              effCount s c (utcDay now)) := by
          by_cases h3 : 3 ≤ effCount sp a.customer_id (utcDay now)
          · rw [commit_rateLimited _ _ _ _ _ _ h3]
            refine ⟨?_, ?_, ?_⟩
            · intro hfr
              simp [isFreshOk] at hfr
            · intro _
              rw [effCount_cleanup now sp _ _ (Nat.le_refl _)]
              exact heffsp _ _
            · intro c hc
              rw [effCount_cleanup now sp _ _ (Nat.le_refl _)]
              exact heffsp _ _
          · have h3lt := Nat.lt_of_not_le h3
            cases hov : hasOverlap a.property_id a.start_at.instant a.end_at.instant sp.tours with
            | true =>
              rw [commit_conflict _ _ _ _ _ _ h3lt hov]
              refine ⟨?_, ?_, ?_⟩
              · intro hfr
                simp [isFreshOk] at hfr
              · intro _
                rw [effCount_getOrCreate]
                rw [effCount_cleanup now sp _ _ (Nat.le_refl _)]
                exact heffsp _ _
              · intro c hc
                rw [effCount_getOrCreate]
                rw [effCount_cleanup now sp _ _ (Nat.le_refl _)]
                exact heffsp _ _
            | false =>
              rw [commit_success _ _ _ _ _ _ h3lt hov]
              refine ⟨?_, ?_, ?_⟩
              · intro _
                constructor
                · rw [← heffsp]
                  exact Nat.le_of_lt_succ h3lt
                · simp only [effCount, lookupA_upsertA_self]
                  rw [hfst.2.1]
              · intro hfr
                simp [isFreshOk] at hfr
              · intro c hc
                have hkne : (c, utcDay now) ≠ (a.customer_id, utcDay now) := by
                  intro hEq
                  exact hc (congrArg Prod.fst hEq)
                simp only [effCount]
                rw [lookupA_upsertA_ne _ _ _ _ hkne]
                rw [lookupA_cleanup]
                simp only [Nat.le_refl, if_pos]
                have := heffsp c (utcDay now)
                simp only [effCount] at this
                exact this
        cases o with
        | none =>
          have hct := create_tour_fresh a now s haw1 haw2 hord (by rw [hp])
          rw [hp] at hct
          simp only at hct
          rw [hct]
          exact hcommit
        | some r =>
          have hct := create_tour_probe_some a now s sp r haw1 haw2 hord hp
          by_cases hfp : r.fingerprint ≠
              fingerprint a.property_id a.customer_id a.start_at.instant a.end_at.instant
          · rw [if_pos hfp] at hct
            rw [hct]
            simp only [isFreshOk]
            refine ⟨?_, ?_, ?_⟩
            · intro hfr
              exact absurd hfr (by simp)
            · intro _
              exact heffsp _ _
            · intro c hc
              exact heffsp _ _
          · rw [if_neg hfp] at hct
            rcases hto : lookupA sp.tours r.tour_id with _ | t2
            · rw [hto] at hct
              rw [hct]
              exact hcommit
            · rw [hto] at hct
              rw [hct]
              simp only [isFreshOk]
              refine ⟨?_, ?_, ?_⟩
              · intro hfr
                exact absurd hfr (by simp)
              · intro _
                exact heffsp _ _
              · intro c hc
                exact heffsp _ _

theorem freshSuccesses_bound (c : String) (d : Nat) :
    ∀ (l : List (CreateArgs × Nat)) (s : St),
      (∀ p ∈ l, utcDay p.2 = d) →
      effCount s c d + freshSuccessesFor c l s ≤ max (effCount s c d) 3 := by
  intro l
  induction l with
  | nil =>
    intro s hday
    simp [freshSuccessesFor]
  | cons p rest ih =>
    intro s hday
    obtain ⟨a, now⟩ := p
    have hdnow : utcDay now = d := hday (a, now) (by simp)
    have hstep := effCount_create a now s
    rw [hdnow] at hstep
    simp only [freshSuccessesFor]
    by_cases hc : a.customer_id = c
    · subst hc
      cases hf : isFreshOk (create_tour a now s).2 with
      | true =>
        obtain ⟨hbound, hinc⟩ := hstep.1 hf
        have hih := ih (create_tour a now s).1
          (fun p hp => hday p (List.mem_cons_of_mem _ hp))
        rw [hinc] at hih
        have h3 : effCount s a.customer_id d + 1 ≤ 3 := by omega
        have hmax : max (effCount s a.customer_id d + 1) 3 = 3 := Nat.max_eq_right h3
        rw [hmax] at hih
        rw [if_pos (by simp : (decide (a.customer_id = a.customer_id) && true) = true)]
        omega
      | false =>
        have heq := hstep.2.1 hf
        have hih := ih (create_tour a now s).1
          (fun p hp => hday p (List.mem_cons_of_mem _ hp))
        rw [heq] at hih
        rw [if_neg (by simp : ¬(decide (a.customer_id = a.customer_id) && false) = true)]
        omega
    · have heq := hstep.2.2 c (fun hEq => hc hEq.symm)
      have hih := ih (create_tour a now s).1
        (fun p hp => hday p (List.mem_cons_of_mem _ hp))
      rw [heq] at hih
      rw [if_neg (by simp [hc])]
      omega

theorem runCreates_replay (a : CreateArgs) (k : String) (r : IdempotencyRecord)
    (t : Tour) (nows : List Nat) (s1 : St)
    (hk : a.idempotency_key = some k) (hk2 : k ≠ "")
    (haw1 : a.start_at.aware = true) (haw2 : a.end_at.aware = true)
    (hord : a.start_at.instant < a.end_at.instant)
    (hrec : lookupA s1.idem k = some r)
    (hfp : r.fingerprint =
      fingerprint a.property_id a.customer_id a.start_at.instant a.end_at.instant)
    (hti : lookupA s1.tours r.tour_id = some t)
    (hexp : ∀ nw ∈ nows, nw < r.expires_at) :
    runCreates (nows.map fun nw => (a, nw)) s1 =
      (s1, nows.map fun _ => Except.ok (t, false)) := by
  induction nows with
  | nil => simp [runCreates]
  | cons nw rest ih =>
    have hstep : create_tour a nw s1 = (s1, Except.ok (t, false)) :=
      create_tour_replay a nw s1 k r t haw1 haw2 hord hk hk2 hrec
        (hexp nw (by simp)) hfp hti
    have hih := ih (fun x hx => hexp x (List.mem_cons_of_mem _ hx))
    simp only [List.map, runCreates, hstep, hih]

theorem mem_upsertA {κ ν : Type} [DecidableEq κ] (l : List (κ × ν)) (k : κ) (v : ν)
    (p : κ × ν) (h : p ∈ upsertA l k v) : p ∈ l ∨ p = (k, v) := by
  induction l with
  | nil =>
    simp [upsertA] at h
    exact Or.inr h
  | cons q t ih =>
    obtain ⟨a, b⟩ := q
    by_cases hak : a = k
    · subst hak
      simp [upsertA] at h
      rcases h with h | h
      · exact Or.inr (by simp [h])
      · exact Or.inl (List.mem_cons_of_mem _ h)
    · simp [upsertA, hak] at h
      rcases h with h | h
      · exact Or.inl (by simp [h])
      · rcases ih h with h2 | h2
        · exact Or.inl (List.mem_cons_of_mem _ h2)
        · exact Or.inr h2

theorem eraseA_sublist {κ ν : Type} [DecidableEq κ] (l : List (κ × ν)) (k : κ) :
    (eraseA l k).Sublist l := by
  induction l with
  | nil => simp [eraseA]
  | cons q t ih =>
    obtain ⟨a, b⟩ := q
    by_cases hak : a = k
    · simp [eraseA, hak]
    · simp only [eraseA, hak, if_neg, if_false]
      exact ih.cons₂ _

theorem mem_eraseA {κ ν : Type} [DecidableEq κ] (l : List (κ × ν)) (k : κ)
    (p : κ × ν) (h : p ∈ eraseA l k) : p ∈ l :=
  (eraseA_sublist l k).subset h

theorem lookupA_isSome_upsertA {κ ν : Type} [DecidableEq κ] (l : List (κ × ν))
    (k k2 : κ) (v : ν) (h : (lookupA l k2).isSome = true) :
    (lookupA (upsertA l k v) k2).isSome = true := by
  by_cases hk : k2 = k
  · subst hk
    rw [lookupA_upsertA_self]
    rfl
  · rw [lookupA_upsertA_ne _ _ _ _ hk]
    exact h

/-- Keys of the tours map are the ids of the tours they hold
    (`save_tour` stores under `tour.id`). -/
def KeysOk (s : St) : Prop :=
  ∀ p ∈ s.tours, p.2.id = p.1

/-- Every stored tour id was produced by the id supply. -/
def IdBound (s : St) : Prop :=
  ∀ p ∈ s.tours, p.1 < s.nextId

/-- Every idempotency record points at a stored tour (tours are never
    deleted). -/
def RecsOk (s : St) : Prop :=
  ∀ q ∈ s.idem, (lookupA s.tours q.2.tour_id).isSome = true

/-- The idempotency map has no duplicate keys (it is a dict). -/
def NodupIdem (s : St) : Prop :=
  (s.idem.map Prod.fst).Nodup

/-- The structural invariant of reachable storage states. -/
def Inv (s : St) : Prop :=
  KeysOk s ∧ IdBound s ∧ RecsOk s ∧ NodupIdem s

theorem inv_initSt : Inv initSt := by
  refine ⟨?_, ?_, ?_, ?_⟩ <;> simp [KeysOk, IdBound, RecsOk, NodupIdem, initSt]

theorem cancel_step_facts (s : St) (id2 now : Nat) (hInv : Inv s) :
    Inv (cancel_tour s id2 now).1 ∧
      (∀ id t, lookupA s.tours id = some t →
        ∃ t', lookupA (cancel_tour s id2 now).1.tours id = some t' ∧
          (t' = t ∨ (t.status = TourStatus.booked ∧
            t' = { t with status := TourStatus.cancelled, updated_at := now }))) ∧
      (∀ id, lookupA s.tours id = none →
        lookupA (cancel_tour s id2 now).1.tours id = none) ∧
      (cancel_tour s id2 now).1.idem = s.idem := by
  obtain ⟨hkeys, hbound, hrecs, hnd⟩ := hInv
  rcases hl : lookupA s.tours id2 with _ | t0
  · simp only [cancel_tour, hl]
    exact ⟨⟨hkeys, hbound, hrecs, hnd⟩,
      fun id t h => ⟨t, h, Or.inl rfl⟩, fun id h => h, trivial⟩
  · have hmem0 : (id2, t0) ∈ s.tours := lookupA_some_mem s.tours id2 t0 hl
    have hid0 : t0.id = id2 := hkeys (id2, t0) hmem0
    simp only [cancel_tour, hl]
    set t2 : Tour := if t0.status ≠ TourStatus.cancelled then
        { t0 with status := TourStatus.cancelled, updated_at := now } else t0 with ht2
    have ht2id : t2.id = id2 := by
      rw [ht2]
      by_cases hst : t0.status ≠ TourStatus.cancelled
      · rw [if_pos hst]
        exact hid0
      · rw [if_neg hst]
        exact hid0
    refine ⟨⟨?_, ?_, ?_, ?_⟩, ?_, ?_, trivial⟩
    · intro p hp
      rcases mem_upsertA _ _ _ _ hp with hin | hEq
      · exact hkeys p hin
      · rw [hEq, ht2id]
    · intro p hp
      rcases mem_upsertA _ _ _ _ hp with hin | hEq
      · exact hbound p hin
      · rw [hEq]
        simp only
        rw [ht2id]
        exact hbound (id2, t0) hmem0
    · intro q hq
      rw [ht2id]
      exact lookupA_isSome_upsertA _ _ _ _ (hrecs q hq)
    · exact hnd
    · intro id t h
      by_cases hid : id = id2
      · subst hid
        have ht0 : t0 = t := by
          rw [hl] at h
          exact Option.some.inj h
        subst ht0
        refine ⟨t2, ?_, ?_⟩
        · rw [ht2id]
          exact lookupA_upsertA_self _ _ _
        · rw [ht2]
          by_cases hst : t0.status ≠ TourStatus.cancelled
          · rw [if_pos hst]
            refine Or.inr ⟨?_, rfl⟩
            cases hc : t0.status with
            | booked => rfl
            | cancelled => exact absurd hc hst
          · rw [if_neg hst]
            exact Or.inl rfl
      · refine ⟨t, ?_, Or.inl rfl⟩
        rw [ht2id]
        rw [lookupA_upsertA_ne _ _ _ _ hid]
        exact h
    · intro id h
      have hid : id ≠ id2 := by
        intro hEq
        rw [hEq, hl] at h
        exact Option.noConfusion h
      rw [ht2id]
      rw [lookupA_upsertA_ne _ _ _ _ hid]
      exact h

theorem step_facts_shape (a : CreateArgs) (now : Nat) (s : St) (hInv : Inv s)
    (h : (create_tour a now s).1 = s) :
    Inv (create_tour a now s).1 ∧
      (∀ id t, lookupA s.tours id = some t →
        lookupA (create_tour a now s).1.tours id = some t) ∧
      (∀ id t2, lookupA (create_tour a now s).1.tours id = some t2 →
        lookupA s.tours id = none → t2.status = TourStatus.booked) ∧
      (∀ k r, lookupA s.idem k = some r → now < r.expires_at →
        lookupA (create_tour a now s).1.idem k = some r) := by
  rw [h]
  refine ⟨hInv, fun id t h2 => h2, ?_, fun k r h2 _ => h2⟩
  intro id t2 hx hy
  rw [hy] at hx
  exact Option.noConfusion hx

theorem create_step_facts (a : CreateArgs) (now : Nat) (s : St) (hInv : Inv s) :
    Inv (create_tour a now s).1 ∧
      (∀ id t, lookupA s.tours id = some t →
        lookupA (create_tour a now s).1.tours id = some t) ∧
      (∀ id t2, lookupA (create_tour a now s).1.tours id = some t2 →
        lookupA s.tours id = none → t2.status = TourStatus.booked) ∧
      (∀ k r, lookupA s.idem k = some r → now < r.expires_at →
        lookupA (create_tour a now s).1.idem k = some r) := by
  obtain ⟨hkeys, hbound, hrecs, hnd⟩ := hInv
  cases haw1 : a.start_at.aware with
  | false =>
    exact step_facts_shape a now s ⟨hkeys, hbound, hrecs, hnd⟩
      (by rw [create_tour_naive_start a now s haw1])
  | true =>
    cases haw2 : a.end_at.aware with
    | false =>
      exact step_facts_shape a now s ⟨hkeys, hbound, hrecs, hnd⟩
        (by rw [create_tour_naive_end a now s haw1 haw2])
    | true =>
      by_cases hord : a.start_at.instant < a.end_at.instant
      case neg =>
        exact step_facts_shape a now s ⟨hkeys, hbound, hrecs, hnd⟩
          (by rw [create_tour_bad_order a now s haw1 haw2 (Nat.le_of_not_lt hord)])
      case pos =>
        rcases hp : idemProbe a now s with ⟨sp, o⟩
        cases o with
        | some r =>
          have hsome := idemProbe_some_inv a now s r (by rw [hp])
          rw [hp] at hsome
          simp only at hsome
          obtain ⟨hspEq, k, hk, hk2, hlk, hexp⟩ := hsome
          subst hspEq
          have hct := create_tour_probe_some a now sp sp r haw1 haw2 hord hp
          by_cases hfp : r.fingerprint ≠
              fingerprint a.property_id a.customer_id a.start_at.instant a.end_at.instant
          · rw [if_pos hfp] at hct
            exact step_facts_shape a now sp ⟨hkeys, hbound, hrecs, hnd⟩ (by rw [hct])
          · rw [if_neg hfp] at hct
            rcases hto : lookupA sp.tours r.tour_id with _ | tFound
            · have himp : (lookupA sp.tours r.tour_id).isSome = true :=
                hrecs (k, r) (lookupA_some_mem _ _ _ hlk)
              rw [hto] at himp
              exact absurd himp (by simp)
            · rw [hto] at hct
              exact step_facts_shape a now sp ⟨hkeys, hbound, hrecs, hnd⟩ (by rw [hct])
        | none =>
          have hct := create_tour_fresh a now s haw1 haw2 hord (by rw [hp])
          rw [hp] at hct
          simp only at hct
          have hfst := idemProbe_fst a now s
          rw [hp] at hfst
          simp only at hfst
          obtain ⟨hspt, hsprl, hspn⟩ := hfst
          have hidem := idemProbe_none_idem a now s (by rw [hp])
          rw [hp] at hidem
          simp only at hidem
          have hmemIdem : ∀ q, q ∈ sp.idem → q ∈ s.idem := by
            intro q hq
            rcases hidem with hsame | ⟨k2, r2, hk2, hk2ne, hlk2, hexp2, herase⟩
            · rw [hsame] at hq
              exact hq
            · rw [herase] at hq
              exact mem_eraseA _ _ _ hq
          have hidemPres : ∀ k r, lookupA s.idem k = some r → now < r.expires_at →
              lookupA sp.idem k = some r := by
            intro k r hkr hexpk
            rcases hidem with hsame | ⟨k2, r2, hk2, hk2ne, hlk2, hexp2, herase⟩
            · rw [hsame]
              exact hkr
            · have hne : k ≠ k2 := by
                intro hEq
                subst hEq
                rw [hkr] at hlk2
                have hrr : r = r2 := Option.some.inj hlk2
                subst hrr
                exact Nat.not_le_of_lt hexpk hexp2
              rw [herase, lookupA_eraseA_ne _ _ _ hne]
              exact hkr
          have hKeyFresh : ∀ k3, a.idempotency_key = some k3 → k3 ≠ "" →
              ∀ r3, lookupA s.idem k3 = some r3 → r3.expires_at ≤ now := by
            intro k3 hk3 hk3ne r3 hl3
            by_contra hlt
            have hprobe2 : idemProbe a now s = (s, some r3) := by
              simp only [idemProbe, hk3]
              rw [if_neg hk3ne]
              simp only [get_idempotency_record]
              rw [hl3]
              simp [hlt]
            rw [hp] at hprobe2
            simp at hprobe2
          have hndsp : (sp.idem.map Prod.fst).Nodup := by
            rcases hidem with hsame | ⟨k2, r2, hk2, hk2ne, hlk2, hexp2, herase⟩
            · rw [hsame]
              exact hnd
            · rw [herase]
              exact keys_eraseA_nodup _ _ hnd
          rw [hct]
          by_cases h3 : 3 ≤ effCount sp a.customer_id (utcDay now)
          · rw [commit_rateLimited _ _ _ _ _ _ h3]
            refine ⟨⟨?_, ?_, ?_, ?_⟩, ?_, ?_, ?_⟩
            · intro p hp2
              have hp3 : p ∈ s.tours := by
                rw [← hspt]
                exact hp2
              exact hkeys p hp3
            · intro p hp2
              have hp3 : p ∈ s.tours := by
                rw [← hspt]
                exact hp2
              show p.1 < sp.nextId
              rw [hspn]
              exact hbound p hp3
            · intro q hq
              have hq2 : q ∈ s.idem := hmemIdem q hq
              have := hrecs q hq2
              show (lookupA sp.tours q.2.tour_id).isSome = true
              rw [hspt]
              exact this
            · exact hndsp
            · intro id t h
              show lookupA sp.tours id = some t
              rw [hspt]
              exact h
            · intro id t2 hx hy
              have hx2 : lookupA s.tours id = some t2 := by
                rw [← hspt]
                exact hx
              rw [hy] at hx2
              exact Option.noConfusion hx2
            · intro k r hkr hexpk
              exact hidemPres k r hkr hexpk
          · have h3lt := Nat.lt_of_not_le h3
            cases hov : hasOverlap a.property_id a.start_at.instant a.end_at.instant sp.tours with
            | true =>
              rw [commit_conflict _ _ _ _ _ _ h3lt hov]
              have hOth := getOrCreate_others a.customer_id (utcDay now)
                { sp with rateLimits := cleanup_rate_limits now sp.rateLimits }
              obtain ⟨hot, hoi, hon⟩ := hOth
              refine ⟨⟨?_, ?_, ?_, ?_⟩, ?_, ?_, ?_⟩
              · intro p hp2
                rw [hot] at hp2
                have hp3 : p ∈ s.tours := by
                  rw [← hspt]
                  exact hp2
                exact hkeys p hp3
              · intro p hp2
                rw [hot] at hp2
                have hp3 : p ∈ s.tours := by
                  rw [← hspt]
                  exact hp2
                rw [hon]
                show p.1 < sp.nextId
                rw [hspn]
                exact hbound p hp3
              · intro q hq
                rw [hoi] at hq
                have hq2 : q ∈ s.idem := hmemIdem q hq
                rw [hot]
                show (lookupA sp.tours q.2.tour_id).isSome = true
                rw [hspt]
                exact hrecs q hq2
              · show ((getOrCreateRateLimit a.customer_id (utcDay now)
                  { sp with rateLimits := cleanup_rate_limits now sp.rateLimits }).1.idem.map
                    Prod.fst).Nodup
                rw [hoi]
                exact hndsp
              · intro id t h
                rw [hot]
                show lookupA sp.tours id = some t
                rw [hspt]
                exact h
              · intro id t2 hx hy
                rw [hot] at hx
                have hx2 : lookupA s.tours id = some t2 := by
                  rw [← hspt]
                  exact hx
                rw [hy] at hx2
                exact Option.noConfusion hx2
              · intro k r hkr hexpk
                rw [hoi]
                exact hidemPres k r hkr hexpk
            | false =>
              rw [commit_success _ _ _ _ _ _ h3lt hov]
              refine ⟨⟨?_, ?_, ?_, ?_⟩, ?_, ?_, ?_⟩
              · intro p hp2
                rcases mem_upsertA _ _ _ _ hp2 with hin | hEq
                · have hp3 : p ∈ s.tours := by
                    rw [← hspt]
                    exact hin
                  exact hkeys p hp3
                · rw [hEq]
              · intro p hp2
                rcases mem_upsertA _ _ _ _ hp2 with hin | hEq
                · have hp3 : p ∈ s.tours := by
                    rw [← hspt]
                    exact hin
                  have := hbound p hp3
                  show p.1 < sp.nextId + 1
                  rw [← hspn] at *
                  omega
                · rw [hEq]
                  show sp.nextId < sp.nextId + 1
                  omega
              · intro q hq
                show (lookupA (upsertA sp.tours sp.nextId _) q.2.tour_id).isSome = true
                rcases hak : a.idempotency_key with _ | k3
                · rw [hak] at hq
                  simp only at hq
                  have hq2 : q ∈ s.idem := hmemIdem q hq
                  apply lookupA_isSome_upsertA
                  rw [hspt]
                  exact hrecs q hq2
                · rw [hak] at hq
                  simp only at hq
                  by_cases hk3 : k3 = ""
                  · rw [if_pos hk3] at hq
                    have hq2 : q ∈ s.idem := hmemIdem q hq
                    apply lookupA_isSome_upsertA
                    rw [hspt]
                    exact hrecs q hq2
                  · rw [if_neg hk3] at hq
                    rcases mem_upsertA _ _ _ _ hq with hin | hEq
                    · have hq2 : q ∈ s.idem := hmemIdem q hin
                      apply lookupA_isSome_upsertA
                      rw [hspt]
                      exact hrecs q hq2
                    · rw [hEq]
                      simp only
                      rw [lookupA_upsertA_self]
                      rfl
              · rcases hak : a.idempotency_key with _ | k3
                · exact hndsp
                · by_cases hk3 : k3 = ""
                  · show (List.map Prod.fst (if k3 = "" then sp.idem else upsertA sp.idem k3 _)).Nodup
                    rw [if_pos hk3]
                    exact hndsp
                  · show (List.map Prod.fst (if k3 = "" then sp.idem else upsertA sp.idem k3 _)).Nodup
                    rw [if_neg hk3]
                    exact keys_upsertA_nodup _ _ _ hndsp
              · intro id t h
                have hmem2 := lookupA_some_mem _ _ _ h
                have hlt : id < sp.nextId := by
                  rw [hspn]
                  exact hbound (id, t) hmem2
                have hne : id ≠ sp.nextId := Nat.ne_of_lt hlt
                show lookupA (upsertA sp.tours sp.nextId _) id = some t
                rw [lookupA_upsertA_ne _ _ _ _ hne]
                rw [hspt]
                exact h
              · intro id t2 hx hy
                by_cases hid : id = sp.nextId
                · subst hid
                  rw [lookupA_upsertA_self] at hx
                  have ht2 := Option.some.inj hx
                  rw [← ht2]
                · rw [lookupA_upsertA_ne _ _ _ _ hid] at hx
                  have hx2 : lookupA s.tours id = some t2 := by
                    rw [← hspt]
                    exact hx
                  rw [hy] at hx2
                  exact Option.noConfusion hx2
              · intro k r hkr hexpk
                rcases hak : a.idempotency_key with _ | k3
                · exact hidemPres k r hkr hexpk
                · by_cases hk3 : k3 = ""
                  · show lookupA (if k3 = "" then sp.idem else _) k = some r
                    rw [if_pos hk3]
                    exact hidemPres k r hkr hexpk
                  · show lookupA (if k3 = "" then sp.idem else _) k = some r
                    rw [if_neg hk3]
                    have hne : k ≠ k3 := by
                      intro hEq
                      subst hEq
                      have := hKeyFresh k hak hk3 r hkr
                      exact Nat.not_le_of_lt hexpk this
                    rw [lookupA_upsertA_ne _ _ _ _ hne]
                    exact hidemPres k r hkr hexpk

theorem inv_applyOp (op : Op) (s : St) (h : Inv s) : Inv (applyOp op s) := by
  cases op with
  | create a now => exact (create_step_facts a now s h).1
  | cancel id now => exact (cancel_step_facts s id now h).1
  | get _ => exact h
  | list _ _ _ _ _ => exact h

theorem inv_execOps (ops : List Op) : ∀ s, Inv s → Inv (execOps ops s) := by
  induction ops with
  | nil =>
    intro s h
    exact h
  | cons op rest ih =>
    intro s h
    exact ih _ (inv_applyOp op s h)

theorem reach_inv (s : St) (h : Reach s) : Inv s := by
  obtain ⟨ops, hops⟩ := h
  rw [← hops]
  exact inv_execOps ops initSt inv_initSt

theorem matchesFilters_iff (t : Tour) (pid : Option String) (dateF : Option Nat)
    (hpid : pid ≠ some "") :
    matchesFilters t pid dateF = true ↔
      (∀ p, pid = some p → t.property_id = p) ∧
      (∀ d, dateF = some d →
        (t.start_at < (d + 1) * 86400 ∧ d * 86400 < t.end_at)) := by
  rcases pid with _ | p
  · rcases dateF with _ | d <;>
      simp [matchesFilters, optTruthy, overlaps]
  · have hp : p ≠ "" := by
      intro hEq
      exact hpid (by rw [hEq])
    rcases dateF with _ | d <;>
      simp [matchesFilters, optTruthy, overlaps, hp]

theorem list_tours_badSort (s : St) (pid : Option String) (dateF : Option Nat)
    (sort : String) (page page_size : Nat)
    (hsf : (if startsWithDash sort then dropFirst sort else sort) ≠ "start_at") :
    list_tours s pid dateF sort page page_size =
      Except.error (AppErr.badRequest "unsupported sort field" "sort") := by
  simp only [list_tours]
  rw [if_pos hsf]

theorem list_tours_asc (s : St) (pid : Option String) (dateF : Option Nat)
    (page page_size : Nat) :
    list_tours s pid dateF "start_at" page page_size =
      Except.ok
        (((List.insertionSort byStartAsc
            ((valuesA s.tours).filter fun t => matchesFilters t pid dateF)).drop
              ((page - 1) * page_size)).take page_size,
         ((valuesA s.tours).filter fun t => matchesFilters t pid dateF).length) := by
  have hrev : startsWithDash "start_at" = false := by decide
  simp only [list_tours, hrev, if_false, Bool.false_eq_true]
  rw [if_neg (by decide : ¬("start_at" : String) ≠ "start_at")]

theorem list_tours_desc (s : St) (pid : Option String) (dateF : Option Nat)
    (page page_size : Nat) :
    list_tours s pid dateF "-start_at" page page_size =
      Except.ok
        (((List.insertionSort byStartDesc
            ((valuesA s.tours).filter fun t => matchesFilters t pid dateF)).drop
              ((page - 1) * page_size)).take page_size,
         ((valuesA s.tours).filter fun t => matchesFilters t pid dateF).length) := by
  have hrev : startsWithDash "-start_at" = true := by decide
  have hdrop : dropFirst "-start_at" = "start_at" := by decide
  simp only [list_tours, hrev, if_true, hdrop]
  rw [if_neg (by decide : ¬("start_at" : String) ≠ "start_at")]

/-! Concrete fixtures used by the claim witnesses and counterexamples. -/

/-- A create request on property "P" for customer "C" over `[0, 10)` with
    idempotency key "K". -/
def wArgs : CreateArgs := ⟨"P", "C", ⟨true, 0⟩, ⟨true, 10⟩, some "K"⟩

/-- The tour that `wArgs` creates from the empty store at time 0. -/
def wTour : Tour := ⟨0, "P", "C", 0, 10, TourStatus.booked, 0, 0⟩

/-- The store after the `wArgs` create at time 0. -/
def wSt : St :=
  { tours := [(0, wTour)],
    idem := [("K", ⟨"K", 0, "P|C|0|10", 0, 86400⟩)],
    rateLimits := [(("C", 0), ⟨"C", 0, 1⟩)],
    nextId := 1 }

/-- Three same-day creates for customer "C" plus one by "C2" whose booked
    tour occupies property "P" over `[0, 10)`: a reachable store where "C"
    has exhausted the daily quota. -/
def wOpsQuota : List Op :=
  [Op.create ⟨"Q", "C", ⟨true, 100⟩, ⟨true, 110⟩, none⟩ 0,
   Op.create ⟨"Q", "C", ⟨true, 120⟩, ⟨true, 130⟩, none⟩ 1,
   Op.create ⟨"Q", "C", ⟨true, 140⟩, ⟨true, 150⟩, none⟩ 2,
   Op.create ⟨"P", "C2", ⟨true, 0⟩, ⟨true, 10⟩, none⟩ 3]

/-- A store holding a single booked tour on "P" over `[0, 10)` for another
    customer, with no quota consumed by "C". -/
def wStOverlap : St :=
  { tours := [(0, ⟨0, "P", "C2", 0, 10, TourStatus.booked, 0, 0⟩)],
    idem := [], rateLimits := [], nextId := 1 }

/-- C1: for a validated create with no applicable idempotency record and
    remaining quota (counter < 3), the call fails with the overlap conflict
    exactly when some stored tour on the same property is still Booked and
    its half-open interval overlaps the requested one (strict inequalities,
    so touching endpoints, other properties and Cancelled tours never
    conflict).  The quota hypothesis is necessary: see the counterexample,
    where quota exhaustion is reported instead of the conflict. -/
theorem claim_C1_amended (a : CreateArgs) (now : Nat) (s : St)
    (haw1 : a.start_at.aware = true) (haw2 : a.end_at.aware = true)
    (hord : a.start_at.instant < a.end_at.instant)
    (hprobe : (idemProbe a now s).2 = none)
    (hquota : effCount s a.customer_id (utcDay now) < 3) :
    (create_tour a now s).2 =
        Except.error (AppErr.conflict "overlapping tour for property") ↔
      ∃ p ∈ s.tours, p.2.property_id = a.property_id ∧
        p.2.status = TourStatus.booked ∧
        p.2.start_at < a.end_at.instant ∧ a.start_at.instant < p.2.end_at := by
  have hct := create_tour_fresh a now s haw1 haw2 hord hprobe
  rcases hp : idemProbe a now s with ⟨sp, o⟩
  rw [hp] at hct
  simp only at hct
  have hfst := idemProbe_fst a now s
  rw [hp] at hfst
  simp only at hfst
  obtain ⟨hspt, hsprl, hspn⟩ := hfst
  have hquota2 : effCount sp a.customer_id (utcDay now) < 3 := by
    unfold effCount at hquota ⊢
    rw [hsprl]
    exact hquota
  rw [hct]
  cases hov : hasOverlap a.property_id a.start_at.instant a.end_at.instant sp.tours with
  | true =>
    rw [commit_conflict _ _ _ _ _ _ hquota2 hov]
    constructor
    · intro _
      rw [← hspt]
      exact (hasOverlap_iff _ _ _ _).1 hov
    · intro _
      rfl
  | false =>
    rw [commit_success _ _ _ _ _ _ hquota2 hov]
    constructor
    · intro hcontra
      exact absurd hcontra (by simp)
    · intro hex
      have hov2 : hasOverlap a.property_id a.start_at.instant a.end_at.instant sp.tours = true := by
        rw [hspt]
        exact (hasOverlap_iff _ _ _ _).2 hex
      rw [hov] at hov2
      exact Bool.noConfusion hov2

/-- C1 counterexample: in a reachable store where customer "C" already made
    3 successful creates today and property "P" holds a Booked tour over
    `[0, 10)`, the overlapping create by "C" fails rate-limited, not with a
    conflict — refuting the unconditional "fails with a conflict if ...
    overlap" reading of the claim. -/
theorem claim_C1_counterexample :
    (create_tour ⟨"P", "C", ⟨true, 0⟩, ⟨true, 10⟩, none⟩ 4 (execOps wOpsQuota initSt)).2 =
        Except.error (AppErr.rateLimit "daily tour creation limit reached") ∧
      hasOverlap "P" 0 10 (execOps wOpsQuota initSt).tours = true :=
  ⟨rfl, rfl⟩

/-- C1 witness: a concrete overlapping create with quota available does
    fail with the overlap conflict. -/
theorem claim_C1_witness :
    (create_tour ⟨"P", "C", ⟨true, 0⟩, ⟨true, 10⟩, none⟩ 0 wStOverlap).2 =
      Except.error (AppErr.conflict "overlapping tour for property") :=
  (claim_C1_amended ⟨"P", "C", ⟨true, 0⟩, ⟨true, 10⟩, none⟩ 0 wStOverlap
    rfl rfl (by decide) rfl (by decide)).2 (by decide)

/-- C2 (amended with the expiry window): if the first create with key `k`
    succeeds, every later call with identical logical parameters issued
    strictly before the record's 24-hour expiry returns the same tour with
    `was_created = false` and leaves the state exactly as after the first
    call: no quota is consumed and no overlap check can fail. -/
theorem claim_C2_amended (a : CreateArgs) (k : String) (n0 : Nat)
    (nows : List Nat) (s0 s1 : St) (t : Tour)
    (hk : a.idempotency_key = some k) (hk2 : k ≠ "")
    (hfirst : create_tour a n0 s0 = (s1, Except.ok (t, true)))
    (hwin : ∀ nw ∈ nows, nw < n0 + 86400) :
    runCreates (nows.map fun nw => (a, nw)) s1 =
      (s1, nows.map fun _ => Except.ok (t, false)) := by
  obtain ⟨haw1, haw2, hord, hrec, htour⟩ :=
    create_success_key_post a n0 s0 s1 t k hk hk2 hfirst
  exact runCreates_replay a k _ t nows s1 hk hk2 haw1 haw2 hord hrec rfl htour hwin

/-- C2 counterexample: with the same key and identical parameters, a retry
    arriving exactly 24 hours later finds the record expired and is
    processed as a fresh create, which here fails with the overlap conflict
    instead of returning `(same tour, wasCreated = false)` — refuting the
    claim for unbounded call sequences. -/
theorem claim_C2_counterexample :
    (create_tour wArgs 86400 (create_tour wArgs 0 initSt).1).2 =
      Except.error (AppErr.conflict "overlapping tour for property") := rfl

/-- C2 witness: two replays inside the window return the created tour with
    `was_created = false` and do not change the state. -/
theorem claim_C2_witness :
    runCreates ([1, 2].map fun nw => (wArgs, nw)) wSt =
      (wSt, [1, 2].map fun _ => Except.ok (wTour, false)) :=
  claim_C2_amended wArgs "K" 0 [1, 2] initSt wSt wTour rfl (by decide) rfl
    (by decide)

/-- C3 (amended): reusing an unexpired key with a request whose fingerprint
    differs fails with the conflict and mutates nothing; the fingerprint is
    the literal pipe-join of propertyId, customerId and the two normalized
    instants.  Because the join is not injective, "different logical
    parameters" does not always imply a different fingerprint: see the
    counterexample with a '|' inside the ids. -/
theorem claim_C3_amended (a : CreateArgs) (now : Nat) (s : St)
    (k : String) (r : IdempotencyRecord)
    (haw1 : a.start_at.aware = true) (haw2 : a.end_at.aware = true)
    (hord : a.start_at.instant < a.end_at.instant)
    (hk : a.idempotency_key = some k) (hk2 : k ≠ "")
    (hl : lookupA s.idem k = some r) (hexp : now < r.expires_at)
    (hfp : r.fingerprint ≠
      fingerprint a.property_id a.customer_id a.start_at.instant a.end_at.instant) :
    create_tour a now s =
        (s, Except.error
          (AppErr.conflict "idempotency key already used with different parameters")) ∧
      fingerprint a.property_id a.customer_id a.start_at.instant a.end_at.instant =
        a.property_id ++ "|" ++ a.customer_id ++ "|" ++
          isoFormat a.start_at.instant ++ "|" ++ isoFormat a.end_at.instant :=
  ⟨create_tour_fp_conflict a now s k r haw1 haw2 hord hk hk2 hl hexp hfp, rfl⟩

/-- C3 counterexample: key "K" is first used with propertyId "p|c2" and
    customerId "c", then reused with the different propertyId "p" (and
    customerId "c2|c"); the pipe-joined fingerprints collide, so the call
    is replayed — it returns the first tour with `was_created = false`
    instead of failing with a conflict, refuting "any change to propertyId
    ... fails with a conflict". -/
theorem claim_C3_counterexample :
    ("p|c2" : String) ≠ "p" ∧
      (create_tour ⟨"p", "c2|c", ⟨true, 0⟩, ⟨true, 10⟩, some "K"⟩ 1
          (create_tour ⟨"p|c2", "c", ⟨true, 0⟩, ⟨true, 10⟩, some "K"⟩ 0 initSt).1).2 =
        Except.ok (⟨0, "p|c2", "c", 0, 10, TourStatus.booked, 0, 0⟩, false) :=
  ⟨by decide, rfl⟩

/-- C3 witness: reusing key "K" with a changed customerId (fingerprint
    differs) is rejected with the conflict, and the fingerprint is the
    pipe-join. -/
theorem claim_C3_witness :
    create_tour ⟨"P", "C9", ⟨true, 0⟩, ⟨true, 10⟩, some "K"⟩ 5 wSt =
        (wSt, Except.error
          (AppErr.conflict "idempotency key already used with different parameters")) ∧
      fingerprint "P" "C9" 0 10 = "P" ++ "|" ++ "C9" ++ "|" ++ isoFormat 0 ++ "|" ++ isoFormat 10 :=
  claim_C3_amended ⟨"P", "C9", ⟨true, 0⟩, ⟨true, 10⟩, some "K"⟩ 5 wSt "K"
    ⟨"K", 0, "P|C|0|10", 0, 86400⟩ rfl rfl (by decide) rfl (by decide) rfl
    (by decide) (by decide)

theorem cancel_booked_eq (s : St) (id now : Nat) (t : Tour) (hkeys : KeysOk s)
    (hl : lookupA s.tours id = some t) (hb : t.status = TourStatus.booked) :
    cancel_tour s id now =
      ({ s with tours := upsertA s.tours id ({ t with status := TourStatus.cancelled, updated_at := now } : Tour) },
       Except.ok ()) := by
  have hid : t.id = id := hkeys (id, t) (lookupA_some_mem _ _ _ hl)
  have hne : t.status ≠ TourStatus.cancelled := by
    rw [hb]
    exact fun hx => TourStatus.noConfusion hx
  simp only [cancel_tour, hl]
  rw [if_pos hne]
  simp only [hid]

theorem cancel_cancelled_eq (s : St) (id now : Nat) (t : Tour) (hkeys : KeysOk s)
    (hl : lookupA s.tours id = some t) (hc : t.status = TourStatus.cancelled) :
    cancel_tour s id now = (s, Except.ok ()) := by
  have hid : t.id = id := hkeys (id, t) (lookupA_some_mem _ _ _ hl)
  have hnn : ¬(t.status ≠ TourStatus.cancelled) := by simp [hc]
  simp only [cancel_tour, hl]
  rw [if_neg hnn]
  rw [hid, upsertA_self_of_lookup s.tours id t hl]

/-- C4: the daily quota really caps fresh successes at 3 per customer per
    UTC day: (1) over any batch of create calls whose clock readings all
    fall on day `d`, a customer starting the day with no counter gets at
    most 3 `was_created = true` results; (2) any validated create with no
    applicable idempotency record whose counter already shows count ≥ 3
    fails with the rate-limit error — with no assumption about overlaps,
    so the otherwise-valid 4th create of the day fails rate-limited, and
    when an overlapping booked tour also exists the rate-limit failure is
    still the one reported (quota check precedes the overlap scan); (3) a
    validated create with remaining quota and no overlapping booked tour
    succeeds with `was_created = true` — so the first 3 non-conflicting
    creates of the day succeed; (4) the counter is incremented exactly by
    the fresh successes: a fresh success finds count ≤ 2 and bumps it by
    one, and every other call leaves it unchanged. -/
theorem claim_C4_daily_quota :
    (∀ (c : String) (d : Nat) (l : List (CreateArgs × Nat)) (s : St),
      (∀ p ∈ l, utcDay p.2 = d) → effCount s c d = 0 →
      freshSuccessesFor c l s ≤ 3) ∧
    (∀ (a : CreateArgs) (now : Nat) (s : St),
      a.start_at.aware = true → a.end_at.aware = true →
      a.start_at.instant < a.end_at.instant →
      (idemProbe a now s).2 = none →
      3 ≤ effCount s a.customer_id (utcDay now) →
      (create_tour a now s).2 =
        Except.error (AppErr.rateLimit "daily tour creation limit reached")) ∧
    (∀ (a : CreateArgs) (now : Nat) (s : St),
      a.start_at.aware = true → a.end_at.aware = true →
      a.start_at.instant < a.end_at.instant →
      (idemProbe a now s).2 = none →
      effCount s a.customer_id (utcDay now) < 3 →
      hasOverlap a.property_id a.start_at.instant a.end_at.instant s.tours = false →
      ∃ t, (create_tour a now s).2 = Except.ok (t, true)) ∧
    (∀ (a : CreateArgs) (now : Nat) (s : St),
      (isFreshOk (create_tour a now s).2 = true →
        effCount s a.customer_id (utcDay now) ≤ 2 ∧
        effCount (create_tour a now s).1 a.customer_id (utcDay now) =
          effCount s a.customer_id (utcDay now) + 1) ∧
      (isFreshOk (create_tour a now s).2 = false →
        effCount (create_tour a now s).1 a.customer_id (utcDay now) =
          effCount s a.customer_id (utcDay now))) := by
  refine ⟨?_, ?_, ?_, ?_⟩
  · intro c d l s hday h0
    have hb := freshSuccesses_bound c d l s hday
    rw [h0] at hb
    simpa using hb
  · intro a now s haw1 haw2 hord hprobe h3
    have hct := create_tour_fresh a now s haw1 haw2 hord hprobe
    rcases hp : idemProbe a now s with ⟨sp, o⟩
    rw [hp] at hct
    simp only at hct
    have hfst := idemProbe_fst a now s
    rw [hp] at hfst
    simp only at hfst
    have h3sp : 3 ≤ effCount sp a.customer_id (utcDay now) := by
      unfold effCount at h3 ⊢
      rw [hfst.2.1]
      exact h3
    rw [hct, commit_rateLimited _ _ _ _ _ _ h3sp]
  · intro a now s haw1 haw2 hord hprobe hquota hov
    have hct := create_tour_fresh a now s haw1 haw2 hord hprobe
    rcases hp : idemProbe a now s with ⟨sp, o⟩
    rw [hp] at hct
    simp only at hct
    have hfst := idemProbe_fst a now s
    rw [hp] at hfst
    simp only at hfst
    have hqsp : effCount sp a.customer_id (utcDay now) < 3 := by
      unfold effCount at hquota ⊢
      rw [hfst.2.1]
      exact hquota
    have hovsp : hasOverlap a.property_id a.start_at.instant a.end_at.instant
        sp.tours = false := by
      rw [hfst.1]
      exact hov
    rw [hct, commit_success _ _ _ _ _ _ hqsp hovsp]
    exact ⟨_, rfl⟩
  · intro a now s
    exact ⟨(effCount_create a now s).1, (effCount_create a now s).2.1⟩

/-- C4 witness: after three same-day successes by customer "C", the
    otherwise-valid non-overlapping 4th create by "C" fails rate-limited,
    while the same request issued by customer "C2" (one success so far)
    succeeds with `was_created = true`. -/
theorem claim_C4_witness :
    (create_tour ⟨"R", "C", ⟨true, 200⟩, ⟨true, 210⟩, none⟩ 4
        (execOps wOpsQuota initSt)).2 =
      Except.error (AppErr.rateLimit "daily tour creation limit reached") ∧
    (∃ t, (create_tour ⟨"R", "C2", ⟨true, 200⟩, ⟨true, 210⟩, none⟩ 4
        (execOps wOpsQuota initSt)).2 = Except.ok (t, true)) :=
  ⟨claim_C4_daily_quota.2.1 ⟨"R", "C", ⟨true, 200⟩, ⟨true, 210⟩, none⟩ 4
      (execOps wOpsQuota initSt) rfl rfl (by decide) rfl (by decide),
   claim_C4_daily_quota.2.2.1 ⟨"R", "C2", ⟨true, 200⟩, ⟨true, 210⟩, none⟩ 4
      (execOps wOpsQuota initSt) rfl rfl (by decide) rfl (by decide) (by decide)⟩

/-- C5 (amended): a failing create adds no tour, allocates no id, writes no
    idempotency record (it can at most purge the supplied key's expired
    record) and never increments a rate-limit counter — the only rate-limit
    change possible is housekeeping: counters surviving the call keep their
    value, and any counter present afterwards but not before is the
    zero-count counter lazily created for (customer, today); a failing
    cancel leaves the state exactly unchanged.  The literal claim ("the
    rate-limit map ... exactly as before") is refuted by the
    counterexample. -/
theorem claim_C5_amended :
    (∀ (a : CreateArgs) (now : Nat) (s s2 : St) (e : AppErr), Reach s →
      create_tour a now s = (s2, Except.error e) →
      s2.tours = s.tours ∧ s2.nextId = s.nextId ∧
      (∀ k r, lookupA s2.idem k = some r → lookupA s.idem k = some r) ∧
      (∀ key c2, lookupA s2.rateLimits key = some c2 →
        lookupA s.rateLimits key = some c2 ∨
          (c2.count = 0 ∧ key = (a.customer_id, utcDay now)))) ∧
    (∀ (s s2 : St) (id now : Nat) (e : AppErr),
      cancel_tour s id now = (s2, Except.error e) → s2 = s) := by
  constructor
  · intro a now s s2 e hreach h
    exact create_error_post a now s s2 e (reach_inv s hreach).2.2.2 h
  · intro s s2 id now e h
    rcases hl : lookupA s.tours id with _ | t
    · simp only [cancel_tour, hl] at h
      exact (congrArg Prod.fst h).symm
    · simp only [cancel_tour, hl] at h
      exact absurd (congrArg Prod.snd h) (by simp)

/-- C5 counterexample: in a reachable store, a create by "C2" that fails
    with the overlap conflict still mutates the rate-limit map (the lazily
    created zero-count counter for ("C2", today) stays behind), refuting
    "the rate-limit map is exactly as before the call". -/
theorem claim_C5_counterexample :
    ((create_tour ⟨"P", "C2", ⟨true, 0⟩, ⟨true, 10⟩, none⟩ 1
        (create_tour ⟨"P", "C1", ⟨true, 0⟩, ⟨true, 10⟩, none⟩ 0 initSt).1).2 =
      Except.error (AppErr.conflict "overlapping tour for property")) ∧
      (create_tour ⟨"P", "C2", ⟨true, 0⟩, ⟨true, 10⟩, none⟩ 1
        (create_tour ⟨"P", "C1", ⟨true, 0⟩, ⟨true, 10⟩, none⟩ 0 initSt).1).1.rateLimits ≠
        (create_tour ⟨"P", "C1", ⟨true, 0⟩, ⟨true, 10⟩, none⟩ 0 initSt).1.rateLimits :=
  ⟨rfl, by decide⟩

/-- C5 witness: the failing create of the counterexample leaves the tours
    map untouched. -/
theorem claim_C5_witness :
    (create_tour ⟨"P", "C2", ⟨true, 0⟩, ⟨true, 10⟩, none⟩ 1
        (create_tour ⟨"P", "C1", ⟨true, 0⟩, ⟨true, 10⟩, none⟩ 0 initSt).1).1.tours =
      (create_tour ⟨"P", "C1", ⟨true, 0⟩, ⟨true, 10⟩, none⟩ 0 initSt).1.tours :=
  (claim_C5_amended.1 ⟨"P", "C2", ⟨true, 0⟩, ⟨true, 10⟩, none⟩ 1
    (create_tour ⟨"P", "C1", ⟨true, 0⟩, ⟨true, 10⟩, none⟩ 0 initSt).1
    (create_tour ⟨"P", "C2", ⟨true, 0⟩, ⟨true, 10⟩, none⟩ 1
      (create_tour ⟨"P", "C1", ⟨true, 0⟩, ⟨true, 10⟩, none⟩ 0 initSt).1).1
    (AppErr.conflict "overlapping tour for property")
    ⟨[Op.create ⟨"P", "C1", ⟨true, 0⟩, ⟨true, 10⟩, none⟩ 0], rfl⟩ rfl).1

/-- C6: cancel is Not-Found on a missing id, transitions a Booked tour to
    Cancelled with a refreshed `updated_at`, is a no-op success on an
    already-Cancelled tour (its `updated_at` keeps the first cancellation's
    value because the state is unchanged), and hence cancelling twice
    equals cancelling once. -/
theorem claim_C6_cancel (s : St) (id now : Nat) (hkeys : KeysOk s) :
    (lookupA s.tours id = none →
      cancel_tour s id now = (s, Except.error (AppErr.notFound "tour not found"))) ∧
    (∀ t, lookupA s.tours id = some t → t.status = TourStatus.booked →
      cancel_tour s id now =
        ({ s with tours := upsertA s.tours id ({ t with status := TourStatus.cancelled, updated_at := now } : Tour) },
         Except.ok ())) ∧
    (∀ t, lookupA s.tours id = some t → t.status = TourStatus.cancelled →
      cancel_tour s id now = (s, Except.ok ())) ∧
    (∀ t (now2 : Nat), lookupA s.tours id = some t →
      (cancel_tour (cancel_tour s id now).1 id now2).1 = (cancel_tour s id now).1) := by
  refine ⟨?_, ?_, ?_, ?_⟩
  · intro h
    simp [cancel_tour, h]
  · intro t hl hb
    exact cancel_booked_eq s id now t hkeys hl hb
  · intro t hl hc
    exact cancel_cancelled_eq s id now t hkeys hl hc
  · intro t now2 hl
    have hid : t.id = id := hkeys (id, t) (lookupA_some_mem _ _ _ hl)
    cases hst : t.status with
    | booked =>
      rw [cancel_booked_eq s id now t hkeys hl hst]
      have hlook2 : lookupA (upsertA s.tours id ({ t with status := TourStatus.cancelled, updated_at := now } : Tour)) id =
          some ({ t with status := TourStatus.cancelled, updated_at := now } : Tour) :=
        lookupA_upsertA_self _ _ _
      have hkeys2 : KeysOk { s with tours := upsertA s.tours id ({ t with status := TourStatus.cancelled, updated_at := now } : Tour) } := by
        intro p hp
        rcases mem_upsertA _ _ _ _ hp with hin | hEq
        · exact hkeys p hin
        · rw [hEq]
          exact hid
      rw [cancel_cancelled_eq _ id now2 _ hkeys2 hlook2 rfl]
    | cancelled =>
      rw [cancel_cancelled_eq s id now t hkeys hl hst]
      rw [cancel_cancelled_eq s id now2 t hkeys hl hst]

/-- C6 witness: cancelling the booked tour of the fixture store marks it
    Cancelled with the new timestamp. -/
theorem claim_C6_witness :
    cancel_tour wSt 0 5 =
      ({ wSt with tours := upsertA wSt.tours 0 ({ wTour with status := TourStatus.cancelled, updated_at := 5 } : Tour) },
       Except.ok ()) :=
  (claim_C6_cancel wSt 0 5 (by unfold KeysOk; decide)).2.1 wTour rfl rfl

theorem idemProbe_none_of_absent (a : CreateArgs) (now : Nat) (s : St) (k : String)
    (hk : a.idempotency_key = some k) (hk2 : k ≠ "")
    (h : lookupA s.idem k = none) : idemProbe a now s = (s, none) := by
  simp only [idemProbe, hk]
  rw [if_neg hk2]
  simp only [get_idempotency_record]
  rw [h]

/-- C7: stepping any reachable store with any operation (create, cancel,
    get, list) never removes a stored tour; a stored tour either survives
    unchanged or — only under a cancel — moves from Booked to Cancelled
    (so a Cancelled tour never reverts); and a tour id that was absent is
    present afterwards only for a create, in Booked status. -/
theorem claim_C7_invariants (s : St) (hreach : Reach s) (op : Op) :
    (∀ id t, lookupA s.tours id = some t →
      ∃ t', lookupA (applyOp op s).tours id = some t' ∧
        (t' = t ∨ (t.status = TourStatus.booked ∧ t'.status = TourStatus.cancelled ∧
          (∃ id2 now2, op = Op.cancel id2 now2) ∧
          t' = { t with status := TourStatus.cancelled, updated_at := t'.updated_at }))) ∧
    (∀ id t', lookupA (applyOp op s).tours id = some t' → lookupA s.tours id = none →
      t'.status = TourStatus.booked ∧ ∃ a2 now2, op = Op.create a2 now2) := by
  have hInv := reach_inv s hreach
  cases op with
  | create a now =>
    obtain ⟨hi, hpres, hnew, hidem⟩ := create_step_facts a now s hInv
    constructor
    · intro id t h
      exact ⟨t, hpres id t h, Or.inl rfl⟩
    · intro id t' h h0
      exact ⟨hnew id t' h h0, a, now, rfl⟩
  | cancel id2 now2 =>
    obtain ⟨hi, hpres, hnone, hidem⟩ := cancel_step_facts s id2 now2 hInv
    constructor
    · intro id t h
      obtain ⟨t', ht', hcase⟩ := hpres id t h
      refine ⟨t', ht', ?_⟩
      rcases hcase with hsame | ⟨hb, hmod⟩
      · exact Or.inl hsame
      · refine Or.inr ⟨hb, ?_, ⟨id2, now2, rfl⟩, ?_⟩
        · rw [hmod]
        · rw [hmod]
    · intro id t' h h0
      simp only [applyOp] at h
      rw [hnone id h0] at h
      exact absurd h (by simp)
  | get id3 =>
    constructor
    · intro id t h
      exact ⟨t, h, Or.inl rfl⟩
    · intro id t' h h0
      simp only [applyOp] at h
      rw [h0] at h
      exact absurd h (by simp)
  | list p d so pg ps =>
    constructor
    · intro id t h
      exact ⟨t, h, Or.inl rfl⟩
    · intro id t' h h0
      simp only [applyOp] at h
      rw [h0] at h
      exact absurd h (by simp)

/-- C7 witness: cancelling the fixture store's booked tour leaves it stored,
    now Cancelled. -/
theorem claim_C7_witness :
    ∃ t', lookupA (applyOp (Op.cancel 0 5) wSt).tours 0 = some t' ∧
      (t' = wTour ∨ (wTour.status = TourStatus.booked ∧ t'.status = TourStatus.cancelled ∧
        (∃ id2 now2, (Op.cancel 0 5 : Op) = Op.cancel id2 now2) ∧
        t' = { wTour with status := TourStatus.cancelled, updated_at := t'.updated_at })) :=
  (claim_C7_invariants wSt ⟨[Op.create wArgs 0], rfl⟩ (Op.cancel 0 5)).1 0 wTour rfl

/-- C8: for a valid list call (page ≥ 1, property filter absent or
    non-empty): an unsupported sort field is rejected with the
    field-attributed bad request; the filtered snapshot keeps exactly the
    tours matching the exact property filter and whose half-open interval
    overlaps the UTC day window `[d*86400, (d+1)*86400)`; and for
    `start_at` (resp. `-start_at`) the call returns the slice
    `[(page-1)*page_size, (page-1)*page_size + page_size)` of an
    ascending (resp. descending) sort of the filtered list, together with
    the pre-slice count. -/
theorem claim_C8_list (s : St) (pid : Option String) (dateF : Option Nat)
    (sort : String) (page page_size : Nat)
    (hpage : 1 ≤ page) (hpid : pid ≠ some "") :
    ((if startsWithDash sort then dropFirst sort else sort) ≠ "start_at" →
      list_tours s pid dateF sort page page_size =
        Except.error (AppErr.badRequest "unsupported sort field" "sort")) ∧
    (∀ t, t ∈ (valuesA s.tours).filter (fun t2 => matchesFilters t2 pid dateF) ↔
      (t ∈ valuesA s.tours ∧ (∀ p, pid = some p → t.property_id = p) ∧
       (∀ d, dateF = some d → (t.start_at < (d + 1) * 86400 ∧ d * 86400 < t.end_at)))) ∧
    (sort = "start_at" →
      ∃ sorted : List Tour,
        sorted.Perm ((valuesA s.tours).filter fun t2 => matchesFilters t2 pid dateF) ∧
        sorted.Sorted byStartAsc ∧
        list_tours s pid dateF sort page page_size =
          Except.ok ((sorted.drop ((page - 1) * page_size)).take page_size,
            ((valuesA s.tours).filter fun t2 => matchesFilters t2 pid dateF).length)) ∧
    (sort = "-start_at" →
      ∃ sorted : List Tour,
        sorted.Perm ((valuesA s.tours).filter fun t2 => matchesFilters t2 pid dateF) ∧
        sorted.Sorted byStartDesc ∧
        list_tours s pid dateF sort page page_size =
          Except.ok ((sorted.drop ((page - 1) * page_size)).take page_size,
            ((valuesA s.tours).filter fun t2 => matchesFilters t2 pid dateF).length)) := by
  refine ⟨list_tours_badSort s pid dateF sort page page_size, ?_, ?_, ?_⟩
  · intro t
    rw [List.mem_filter]
    constructor
    · rintro ⟨hmem, hmf⟩
      exact ⟨hmem, (matchesFilters_iff t pid dateF hpid).1 hmf⟩
    · rintro ⟨hmem, hcond⟩
      exact ⟨hmem, (matchesFilters_iff t pid dateF hpid).2 hcond⟩
  · intro hsort
    subst hsort
    exact ⟨List.insertionSort byStartAsc _, List.perm_insertionSort _ _,
      List.sorted_insertionSort _ _, list_tours_asc s pid dateF page page_size⟩
  · intro hsort
    subst hsort
    exact ⟨List.insertionSort byStartDesc _, List.perm_insertionSort _ _,
      List.sorted_insertionSort _ _, list_tours_desc s pid dateF page page_size⟩

/-- C8 witness: asking the fixture store for the unsupported sort field
    "end_at" fails with the field-attributed bad request. -/
theorem claim_C8_witness :
    list_tours wSt none none "end_at" 1 20 =
      Except.error (AppErr.badRequest "unsupported sort field" "sort") :=
  (claim_C8_list wSt none none "end_at" 1 20 (by decide) (by decide)).1 (by decide)

/-- C9: on every reachable store, a fresh successful keyed create writes
    the record once with `expires_at = created_at + 24h` and the request's
    fingerprint; while a key's record is unexpired no create or cancel ever
    changes it; `get_idempotency_record` treats an expired record as absent
    and purges it; and a validated create reusing a key after expiry
    behaves exactly as if the key's record were already gone. -/
theorem claim_C9_idem_lifecycle (s : St) (hreach : Reach s) :
    (∀ (a : CreateArgs) (now : Nat) (k : String) (s2 : St) (t : Tour),
      a.idempotency_key = some k → k ≠ "" →
      (idemProbe a now s).2 = none →
      create_tour a now s = (s2, Except.ok (t, true)) →
      lookupA s2.idem k = some { key := k, tour_id := t.id, fingerprint := fingerprint a.property_id a.customer_id a.start_at.instant a.end_at.instant, created_at := now, expires_at := now + 86400 }) ∧
    (∀ k r, lookupA s.idem k = some r →
      (∀ (a : CreateArgs) (now : Nat), now < r.expires_at →
        lookupA (create_tour a now s).1.idem k = some r) ∧
      (∀ (id now : Nat), lookupA (cancel_tour s id now).1.idem k = some r)) ∧
    (∀ (k : String) (r : IdempotencyRecord) (now : Nat),
      lookupA s.idem k = some r → r.expires_at ≤ now →
      get_idempotency_record s k now = ({ s with idem := eraseA s.idem k }, none)) ∧
    (∀ (a : CreateArgs) (now : Nat) (k : String) (r : IdempotencyRecord),
      a.start_at.aware = true → a.end_at.aware = true →
      a.start_at.instant < a.end_at.instant →
      a.idempotency_key = some k → k ≠ "" →
      lookupA s.idem k = some r → r.expires_at ≤ now →
      create_tour a now s = create_tour a now { s with idem := eraseA s.idem k }) := by
  have hInv := reach_inv s hreach
  refine ⟨?_, ?_, ?_, ?_⟩
  · intro a now k s2 t hk hk2 hprobe hok
    exact (create_success_key_post a now s s2 t k hk hk2 hok).2.2.2.1
  · intro k r hkr
    constructor
    · intro a now hexp
      exact (create_step_facts a now s hInv).2.2.2 k r hkr hexp
    · intro id now
      rw [(cancel_step_facts s id now hInv).2.2.2]
      exact hkr
  · intro k r now hkr hexp
    simp only [get_idempotency_record, hkr]
    rw [if_pos hexp]
  · intro a now k r haw1 haw2 hord hk hk2 hkr hexp
    have hnd := hInv.2.2.2
    have hpL : idemProbe a now s = ({ s with idem := eraseA s.idem k }, none) := by
      simp only [idemProbe, hk]
      rw [if_neg hk2]
      simp only [get_idempotency_record]
      rw [hkr]
      simp [hexp]
    have hpR : idemProbe a now { s with idem := eraseA s.idem k } =
        ({ s with idem := eraseA s.idem k }, none) :=
      idemProbe_none_of_absent a now { s with idem := eraseA s.idem k } k hk hk2
        (lookupA_eraseA_self_of_nodup s.idem k hnd)
    rw [create_tour_valid a now s haw1 haw2 hord,
      create_tour_valid a now { s with idem := eraseA s.idem k } haw1 haw2 hord,
      hpL, hpR]

/-- C9 witness: the fixture record for key "K" is expired at time 90000 and
    the read purges it and reports it absent. -/
theorem claim_C9_witness :
    get_idempotency_record wSt "K" 90000 =
      ({ wSt with idem := eraseA wSt.idem "K" }, none) :=
  (claim_C9_idem_lifecycle wSt ⟨[Op.create wArgs 0], rfl⟩).2.2.1 "K"
    ⟨"K", 0, "P|C|0|10", 0, 86400⟩ 90000 rfl (by decide)

/-- C10: a keyed create that finds an unexpired record with a matching
    fingerprint whose referenced tour has since been Cancelled returns that
    Cancelled tour with `was_created = false` and changes nothing: no
    replacement booking, no conflict, no quota consumed. -/
theorem claim_C10_replay_cancelled (a : CreateArgs) (now : Nat) (s : St)
    (k : String) (r : IdempotencyRecord) (t : Tour)
    (haw1 : a.start_at.aware = true) (haw2 : a.end_at.aware = true)
    (hord : a.start_at.instant < a.end_at.instant)
    (hk : a.idempotency_key = some k) (hk2 : k ≠ "")
    (hl : lookupA s.idem k = some r) (hexp : now < r.expires_at)
    (hfp : r.fingerprint =
      fingerprint a.property_id a.customer_id a.start_at.instant a.end_at.instant)
    (ht : lookupA s.tours r.tour_id = some t)
    (hcanc : t.status = TourStatus.cancelled) :
    create_tour a now s = (s, Except.ok (t, false)) :=
  create_tour_replay a now s k r t haw1 haw2 hord hk hk2 hl hexp hfp ht

/-- C10 witness: after cancelling the fixture tour, replaying the original
    keyed create returns the Cancelled tour with `was_created = false` and
    an unchanged store. -/
theorem claim_C10_witness :
    create_tour wArgs 10 (cancel_tour wSt 0 5).1 =
      ((cancel_tour wSt 0 5).1,
       Except.ok ((⟨0, "P", "C", 0, 10, TourStatus.cancelled, 0, 5⟩ : Tour), false)) :=
  claim_C10_replay_cancelled wArgs 10 (cancel_tour wSt 0 5).1 "K"
    ⟨"K", 0, "P|C|0|10", 0, 86400⟩ ⟨0, "P", "C", 0, 10, TourStatus.cancelled, 0, 5⟩
    rfl rfl (by decide) rfl (by decide) rfl (by decide) (by decide) rfl rfl

end TourApp
